import Mathlib

/-!
Verification development for the tfl-nexus adaptive severity-to-delay
estimation subsystem: a shallow embedding of the severity learner, the
disruption classifier and lifecycle tracker, and the transfer statistics
engine, together with theorems about their behaviour.

Modelling conventions:
- Python floats are modelled as exact rationals; the arithmetic of the
  estimator and of the statistics engine is simple enough that no float
  rounding issue is material to the statements proved here.
- Timestamps are modelled as integers (UTC instants, seconds).
- Database rows are modelled as Lean structures, tables as lists of rows,
  and SQL queries as list filters over denormalised rows that carry the
  fields a join would bring in.
-/

namespace TflNexus

/-- Substring containment on strings, the model of the Python `in` operator
on str used throughout the classifier and the learner. -/
def containsKeyword (text : String) (kw : String) : Bool :=
  decide (kw.toList <:+: text.toList)

/-- Python str.lower, written as a character-list map so that concrete
instances reduce by evaluation (extensionally String.toLower). -/
def pyLower (s : String) : String := String.mk (s.data.map Char.toLower)

/-- Python string slicing s[:n], written as a character-list take so that
concrete instances reduce by evaluation (extensionally String.take). -/
def pyTake (s : String) (n : Nat) : String := String.mk (s.data.take n)

namespace SeverityLearner

/-- Row of the severity_levels table (src/data/models.py, SeverityLevel). -/
structure SeverityLevelRec where
  modeName : String
  severityLevel : Int
  description : String
  estimatedDelayMinutes : Option ℚ
  isSuspension : Bool
  sampleCount : Nat
  confidenceScore : ℚ
  lastUpdated : Int
deriving DecidableEq

/-- Static initial delay table from SeverityLearner._load_severity_definitions:
keys 0..10 where key 10 maps to None; a lookup of any other level falls back
to the dict-get default 10.0. -/
def initialDelayMap (level : Int) : Option ℚ :=
  if level = 0 then some 0
  else if level = 1 then some 1
  else if level = 2 then some 3
  else if level = 3 then some 5
  else if level = 4 then some 8
  else if level = 5 then some 10
  else if level = 6 then some 12
  else if level = 7 then some 15
  else if level = 8 then some 20
  else if level = 9 then some 25
  else if level = 10 then none
  else some 10

/-- Suspension keyword list of _load_severity_definitions. -/
def suspensionKeywordsInit : List String :=
  ["suspend", "closed", "closure", "no service"]

/-- Construction of one severity row in _load_severity_definitions: the
suspension flag is keyword presence in the lowercased description, the
estimate is None for suspensions and the static table value otherwise,
and the confidence prior is 0.3. -/
def mkSeverityRecord (modeName : String) (level : Int) (description : String)
    (now : Int) : SeverityLevelRec :=
  let descLower := pyLower description
  let isSusp := suspensionKeywordsInit.any (fun kw => containsKeyword descLower kw)
  let est := if isSusp then none else initialDelayMap level
  { modeName := modeName
    severityLevel := level
    description := description
    estimatedDelayMinutes := est
    isSuspension := isSusp
    sampleCount := 0
    confidenceScore := 3/10
    lastUpdated := now }

/-- Row of the realtime_delay_samples table, denormalised with the fields the
query in _update_severity_estimates joins in: the mode of the owning Service
row and the severity_level of the owning LiveDisruption row. -/
structure DelaySampleRec where
  serviceId : Int
  serviceMode : String
  stopId : Int
  severityAtTime : String
  disruptionSeverityLevel : Option Int
  measuredDelaySeconds : Int
  timestamp : Int
deriving DecidableEq

/-- Seconds in the trailing seven-day window of _update_severity_estimates. -/
def sevenDays : Int := 7 * 24 * 60 * 60

/-- The sample-selection query of _update_severity_estimates for one severity
row: samples whose Service mode matches, whose timestamp lies in the trailing
7-day window, and whose owning LiveDisruption has the matching severity level
(a row whose disruption severity level is NULL matches nothing). -/
def recentSamplesFor (sev : SeverityLevelRec) (now : Int)
    (samples : List DelaySampleRec) : List DelaySampleRec :=
  samples.filter (fun s =>
    s.serviceMode == sev.modeName
    && decide (now - sevenDays ≤ s.timestamp)
    && s.disruptionSeverityLevel == some sev.severityLevel)

/-- Minimum of two rationals, written out so that concrete instances reduce
by evaluation. -/
def ratMin (a b : ℚ) : ℚ := if a ≤ b then a else b

/-- Python round to an integer: round-half-to-even. -/
def roundHalfEven (q : ℚ) : ℤ :=
  let f := ⌊q⌋
  if q - f < 1/2 then f
  else if 1/2 < q - f then f + 1
  else if f % 2 = 0 then f else f + 1

/-- Python round(x, 2): round to two decimal places, half to even. -/
def pyRound2 (q : ℚ) : ℚ := (roundHalfEven (q * 100) : ℚ) / 100

/-- Body of the per-severity update in _update_severity_estimates. With fewer
than min_samples_for_update recent samples the row is left unchanged
(the continue branch). Otherwise: the sample mean in minutes is blended with
the prior estimate; old_estimate is the Python expression
(severity.estimated_delay_minutes or 10.0), so a None or 0.0 stored estimate
reads as 10.0; the result is stored rounded to two decimals; confidence moves
to min(old + 0.05, 0.95); sample_count becomes the recent-sample count. -/
def updateSeverityEstimate (minSamplesForUpdate : Nat) (now : Int)
    (sev : SeverityLevelRec) (samples : List DelaySampleRec) : SeverityLevelRec :=
  let recentSamples := recentSamplesFor sev now samples
  if recentSamples.length < minSamplesForUpdate then sev
  else
    let sampleMeanDelay : ℚ :=
      (recentSamples.map (fun s => (s.measuredDelaySeconds : ℚ))).sum / recentSamples.length
    let sampleMeanMinutes : ℚ := sampleMeanDelay / 60
    let oldEstimate : ℚ :=
      match sev.estimatedDelayMinutes with
      | none => 10
      | some e => if e = 0 then 10 else e
    let oldConfidence := sev.confidenceScore
    let sampleWeight : ℚ := ratMin ((recentSamples.length : ℚ) * (1/10)) 5
    let newEstimate :=
      (oldEstimate * oldConfidence + sampleMeanMinutes * sampleWeight)
        / (oldConfidence + sampleWeight)
    let newConfidence := ratMin (oldConfidence + 1/20) (19/20)
    { sev with
      estimatedDelayMinutes := some (pyRound2 newEstimate)
      confidenceScore := newConfidence
      sampleCount := recentSamples.length
      lastUpdated := now }

/-- One row of the _update_severity_estimates pass: the query filters on
is_suspension == False, so suspension rows are untouched. -/
def updateSeverityRow (minSamplesForUpdate : Nat) (now : Int)
    (samples : List DelaySampleRec) (sev : SeverityLevelRec) : SeverityLevelRec :=
  if sev.isSuspension then sev
  else updateSeverityEstimate minSamplesForUpdate now sev samples

/-- The whole _update_severity_estimates pass over the severity table. -/
def updateSeverityEstimates (minSamplesForUpdate : Nat) (now : Int)
    (levels : List SeverityLevelRec) (samples : List DelaySampleRec) :
    List SeverityLevelRec :=
  levels.map (updateSeverityRow minSamplesForUpdate now samples)

/-- Concrete non-suspension severity row used to exercise the update rule:
tube level 2, stored estimate 1.0 minutes, confidence 0.3. -/
def testSeverity : SeverityLevelRec :=
  { modeName := "tube"
    severityLevel := 2
    description := "Minor Delays"
    estimatedDelayMinutes := some 1
    isSuspension := false
    sampleCount := 0
    confidenceScore := 3/10
    lastUpdated := 0 }

/-- Twenty fresh samples of 120 measured delay seconds each for tube level 2. -/
def testSamples : List DelaySampleRec :=
  List.replicate 20
    { serviceId := 1
      serviceMode := "tube"
      stopId := 1
      severityAtTime := "Minor Delays"
      disruptionSeverityLevel := some 2
      measuredDelaySeconds := 120
      timestamp := 0 }

end SeverityLearner

namespace Monitor

/-- Result of Python datetime.fromisoformat on a Z-normalised timestamp
string, modelled abstractly: none is a raised ValueError; aware records
whether the parsed datetime carries a UTC offset (an offset-free string
parses to a naive datetime); t is the instant as a UTC epoch value. The
embedding is parametric in the parse function, so no concrete ISO-8601
grammar is fixed here. -/
structure PyDatetime where
  aware : Bool
  t : Int
deriving DecidableEq

/-- Python truthiness of an optional string: None and the empty string are
falsy. -/
def strTruthy : Option String → Bool
  | none => false
  | some s => !(s == "")

/-- One entry of routeSectionNaptanEntrySequence, with the naptanId of its
stopPoint object flattened in. -/
structure RouteSeqEntry where
  ordinal : Option Int
  naptanId : Option String
deriving DecidableEq

/-- One entry of the affectedRoutes payload list. -/
structure RouteData where
  lineId : Option String
  routeSectionNaptanEntrySequence : List RouteSeqEntry
deriving DecidableEq

/-- One entry of the affectedStops payload list. -/
structure StopJson where
  naptanId : Option String
deriving DecidableEq

/-- A raw disruption payload as consumed by the monitor (the dict fields the
code reads; dtype models the field named type). -/
structure DisruptionData where
  category : Option String
  categoryDescription : Option String
  dtype : Option String
  created : Option String
  description : Option String
  summary : Option String
  additionalInfo : Option String
  closureText : Option String
  lastUpdate : Option String
  validFrom : Option String
  validTo : Option String
  affectedRoutes : List RouteData
  affectedStops : Option (List StopJson)
deriving DecidableEq

/-- Suspension keyword list of DisruptionAnalyzer.analyze_disruption. -/
def suspensionKeywords : List String :=
  ["suspended", "no service", "closed", "not running",
   "not stopping", "service suspended"]

/-- Partial-modifier keyword list of DisruptionAnalyzer.analyze_disruption. -/
def partialKeywords : List String :=
  ["part suspended", "partially suspended", "section closed",
   "between", "part closure", "partial closure"]

/-- The combined lowercased text analyzed by the classifier:
description, summary and closure text joined by single spaces. -/
def combinedText (d : DisruptionData) : String :=
  pyLower (d.description.getD "") ++ " " ++ pyLower (d.summary.getD "")
    ++ " " ++ pyLower (d.closureText.getD "")

/-- Output of DisruptionAnalyzer.analyze_disruption. -/
structure AnalysisResult where
  isFullSuspension : Bool
  isPartialSuspension : Bool
  startNaptan : Option String
  endNaptan : Option String
deriving DecidableEq

/-- DisruptionAnalyzer._extract_section_naptans: scan the affected routes;
for the first route with a nonempty stop sequence, sort the sequence by the
ordinal field (missing ordinals default to 0; Python sorted is stable, as is
insertion sort) and take the naptanIds of the first and last entries; return
them when both are truthy, otherwise keep scanning. -/
def extractSectionNaptans : List RouteData → Option String × Option String
  | [] => (none, none)
  | route :: rest =>
    let sequence := route.routeSectionNaptanEntrySequence
    if sequence.isEmpty then extractSectionNaptans rest
    else
      let sorted := sequence.insertionSort
        (fun a b => a.ordinal.getD 0 ≤ b.ordinal.getD 0)
      let startNaptan := sorted.head?.bind (fun e => e.naptanId)
      let endNaptan := sorted.getLast?.bind (fun e => e.naptanId)
      if strTruthy startNaptan && strTruthy endNaptan then (startNaptan, endNaptan)
      else extractSectionNaptans rest

/-- DisruptionAnalyzer.analyze_disruption: keyword classification over the
combined lowercased text, and boundary extraction for partial suspensions. -/
def analyzeDisruption (d : DisruptionData) : AnalysisResult :=
  let combined := combinedText d
  let hasSuspension := suspensionKeywords.any (fun kw => containsKeyword combined kw)
  let hasPartial := partialKeywords.any (fun kw => containsKeyword combined kw)
  let isFullSuspension := hasSuspension && !hasPartial
  let isPartialSuspension := hasSuspension && hasPartial
  let boundary :=
    if isPartialSuspension then extractSectionNaptans d.affectedRoutes
    else (none, none)
  { isFullSuspension := isFullSuspension
    isPartialSuspension := isPartialSuspension
    startNaptan := boundary.1
    endNaptan := boundary.2 }

/-- DisruptionAnalyzer.extract_line_ids: the truthy lineIds of the affected
routes, deduplicated. The Python code collects them into a set and lists it;
the set iteration order is modelled as first-occurrence order. -/
def extractLineIds (routes : List RouteData) : List String :=
  (routes.filterMap (fun r =>
    match r.lineId with
    | none => none
    | some s => if s = "" then none else some s)).dedup

/-- Row of the live_disruptions table (the columns the phase 2B monitor reads
or writes; severity columns stay null because _create_disruption does not set
them). -/
structure LiveDisruptionRec where
  tflDisruptionId : String
  serviceId : Int
  category : String
  categoryDescription : Option String
  disruptionType : Option String
  description : String
  summary : Option String
  additionalInfo : Option String
  closureText : Option String
  severity : Option String
  severityLevel : Option Int
  isFullSuspension : Bool
  isPartialSuspension : Bool
  affectedSectionStartNaptan : Option String
  affectedSectionEndNaptan : Option String
  affectedStopsJson : Option (List StopJson)
  affectedRoutesJson : List RouteData
  created : Option PyDatetime
  lastUpdate : Option PyDatetime
  validFrom : Option PyDatetime
  validTo : Option PyDatetime
  startTime : Option PyDatetime
  actualEndTime : Option Int
  updatedAt : Int
deriving DecidableEq

/-- DisruptionMonitor._parse_timestamp: falsy input gives None, a parse
failure is caught and gives None. -/
def parseTimestamp (parse : String → Option PyDatetime) :
    Option String → Option PyDatetime
  | none => none
  | some s => if s = "" then none else parse s

/-- DisruptionMonitor._should_update_disruption. A missing or empty
lastUpdate returns True; a parse failure raises inside the try and returns
True; a stored None last_update returns True; otherwise the upstream value
must be strictly newer. Comparing a naive parsed datetime with the stored
value (coerced to UTC) raises TypeError, which the bare except also turns
into True. -/
def shouldUpdateDisruption (parse : String → Option PyDatetime)
    (existing : LiveDisruptionRec) (d : DisruptionData) : Bool :=
  match d.lastUpdate with
  | none => true
  | some s =>
    if s = "" then true
    else
      match parse s with
      | none => true
      | some ts =>
        match existing.lastUpdate with
        | none => true
        | some st => if ts.aware then decide (ts.t > st.t) else true

/-- DisruptionMonitor._generate_disruption_id, with the md5 hex digest
supplied as an oracle (md5 itself is not modelled). -/
def generateDisruptionId (md5hex : String → String) (d : DisruptionData)
    (serviceId : Int) : String :=
  let category := d.category.getD "Unknown"
  let disruptionType := d.dtype.getD "Unknown"
  let createdStr := d.created.getD ""
  let description := pyTake (d.description.getD "") 50
  let baseString := toString serviceId ++ ":" ++ category ++ ":"
    ++ disruptionType ++ ":" ++ createdStr ++ ":" ++ description
  let hashSuffix := pyTake (md5hex baseString) 12
  "disr-" ++ pyTake (pyLower category) 4 ++ "-" ++ hashSuffix

/-- DisruptionMonitor._create_disruption. The created timestamp falls back to
now when the created field is falsy; start_time receives the same value. -/
def createDisruption (parse : String → Option PyDatetime) (tflId : String)
    (serviceId : Int) (d : DisruptionData) (analysis : AnalysisResult)
    (now : Int) : LiveDisruptionRec :=
  let createdDt : Option PyDatetime :=
    if strTruthy d.created then parseTimestamp parse d.created
    else some ⟨true, now⟩
  { tflDisruptionId := tflId
    serviceId := serviceId
    category := d.category.getD "Unknown"
    categoryDescription := d.categoryDescription
    disruptionType := d.dtype
    description := d.description.getD "No description"
    summary := d.summary
    additionalInfo := d.additionalInfo
    closureText := d.closureText
    severity := none
    severityLevel := none
    isFullSuspension := analysis.isFullSuspension
    isPartialSuspension := analysis.isPartialSuspension
    affectedSectionStartNaptan := analysis.startNaptan
    affectedSectionEndNaptan := analysis.endNaptan
    affectedStopsJson := d.affectedStops
    affectedRoutesJson := d.affectedRoutes
    created := createdDt
    lastUpdate := parseTimestamp parse d.lastUpdate
    validFrom := parseTimestamp parse d.validFrom
    validTo := parseTimestamp parse d.validTo
    startTime := createdDt
    actualEndTime := none
    updatedAt := now }

/-- DisruptionMonitor._update_disruption: rewrite the payload-derived fields
of an existing record (the description keeps its old value when the payload
field is missing; the other text fields are overwritten even with None). -/
def updateDisruption (parse : String → Option PyDatetime) (now : Int)
    (r : LiveDisruptionRec) (d : DisruptionData) (analysis : AnalysisResult) :
    LiveDisruptionRec :=
  { r with
    description := d.description.getD r.description
    summary := d.summary
    additionalInfo := d.additionalInfo
    closureText := d.closureText
    categoryDescription := d.categoryDescription
    isFullSuspension := analysis.isFullSuspension
    isPartialSuspension := analysis.isPartialSuspension
    affectedSectionStartNaptan := analysis.startNaptan
    affectedSectionEndNaptan := analysis.endNaptan
    affectedStopsJson := d.affectedStops
    affectedRoutesJson := d.affectedRoutes
    lastUpdate := parseTimestamp parse d.lastUpdate
    validTo := parseTimestamp parse d.validTo
    updatedAt := now }

/-- The session query filter_by(tfl_disruption_id=...).first(). -/
def findByTflId (db : List LiveDisruptionRec) (tid : String) :
    Option LiveDisruptionRec :=
  db.find? (fun r => r.tflDisruptionId == tid)

/-- In-place mutation of the first record with the given id, modelling an ORM
update of the row found by findByTflId. -/
def replaceByTflId (db : List LiveDisruptionRec) (tid : String)
    (r : LiveDisruptionRec) : List LiveDisruptionRec :=
  match db with
  | [] => []
  | x :: rest =>
    if x.tflDisruptionId == tid then r :: rest
    else x :: replaceByTflId rest tid r

/-- Dict lookup in the service map built by _build_service_map. -/
def lookupService (sm : List (String × Int)) (lineId : String) : Option Int :=
  (sm.find? (fun p => p.1 == lineId)).map (fun p => p.2)

/-- Per-payload result of _process_disruption. -/
structure ProcResult where
  newCount : Nat
  updatedCount : Nat
  activeIds : List String
deriving DecidableEq

/-- One iteration of the line-id loop in _process_disruption. -/
def processLineStep (parse : String → Option PyDatetime)
    (md5hex : String → String) (sm : List (String × Int)) (now : Int)
    (d : DisruptionData) (analysis : AnalysisResult)
    (acc : List LiveDisruptionRec × ProcResult) (lineId : String) :
    List LiveDisruptionRec × ProcResult :=
  let db := acc.1
  let res := acc.2
  match lookupService sm lineId with
  | none => (db, res)
  | some serviceId =>
    let tid := generateDisruptionId md5hex d serviceId
    match findByTflId db tid with
    | some existing =>
      if shouldUpdateDisruption parse existing d then
        (replaceByTflId db tid (updateDisruption parse now existing d analysis),
         { res with
            updatedCount := res.updatedCount + 1
            activeIds := res.activeIds ++ [tid] })
      else (db, { res with activeIds := res.activeIds ++ [tid] })
    | none =>
      (db ++ [createDisruption parse tid serviceId d analysis now],
       { res with
          newCount := res.newCount + 1
          activeIds := res.activeIds ++ [tid] })

/-- DisruptionMonitor._process_disruption over one payload. -/
def processDisruption (parse : String → Option PyDatetime)
    (md5hex : String → String) (sm : List (String × Int)) (now : Int)
    (db : List LiveDisruptionRec) (d : DisruptionData) :
    List LiveDisruptionRec × ProcResult :=
  let lineIds := extractLineIds d.affectedRoutes
  if lineIds.isEmpty then (db, ⟨0, 0, []⟩)
  else
    let analysis := analyzeDisruption d
    lineIds.foldl (processLineStep parse md5hex sm now d analysis) (db, ⟨0, 0, []⟩)

/-- DisruptionMonitor._resolve_missing_disruptions: every open record whose
id is not in the active set receives actual_end_time = now; returns the new
table and the count of records resolved. -/
def resolveMissingDisruptions (db : List LiveDisruptionRec)
    (activeIds : List String) (now : Int) : List LiveDisruptionRec × Nat :=
  (db.map (fun r =>
      if r.actualEndTime == none && !(activeIds.contains r.tflDisruptionId)
      then { r with actualEndTime := some now, updatedAt := now }
      else r),
   (db.filter (fun r =>
      r.actualEndTime == none && !(activeIds.contains r.tflDisruptionId))).length)

/-- Per-cycle statistics of poll_cycle. -/
structure CycleStats where
  newCount : Nat
  updatedCount : Nat
  resolvedCount : Nat
deriving DecidableEq

/-- One iteration of the payload loop in poll_cycle: process one payload and
fold its counts and active ids into the cycle accumulator. -/
def processDisruptionStep (parse : String → Option PyDatetime)
    (md5hex : String → String) (sm : List (String × Int)) (now : Int)
    (acc : List LiveDisruptionRec × CycleStats × List String)
    (d : DisruptionData) : List LiveDisruptionRec × CycleStats × List String :=
  let r := processDisruption parse md5hex sm now acc.1 d
  (r.1,
   { newCount := acc.2.1.newCount + r.2.newCount
     updatedCount := acc.2.1.updatedCount + r.2.updatedCount
     resolvedCount := acc.2.1.resolvedCount },
   acc.2.2 ++ r.2.activeIds)

/-- The processing phase of poll_cycle: fold _process_disruption over the
payload list, accumulating statistics and the active-id set. -/
def processAllDisruptions (parse : String → Option PyDatetime)
    (md5hex : String → String) (sm : List (String × Int)) (now : Int)
    (disruptions : List DisruptionData) (db : List LiveDisruptionRec) :
    List LiveDisruptionRec × CycleStats × List String :=
  disruptions.foldl (processDisruptionStep parse md5hex sm now) (db, ⟨0, 0, 0⟩, [])

/-- DisruptionMonitor.poll_cycle: process every payload, then run the
resolution sweep on the resulting table with the accumulated active-id set.
All timestamps taken during the cycle are modelled by the single instant
now. The returned triple is the new table, the cycle statistics and the
active-id set. -/
def pollCycle (parse : String → Option PyDatetime) (md5hex : String → String)
    (sm : List (String × Int)) (now : Int)
    (disruptions : List DisruptionData) (db : List LiveDisruptionRec) :
    List LiveDisruptionRec × CycleStats × List String :=
  let p := processAllDisruptions parse md5hex sm now disruptions db
  let swept := resolveMissingDisruptions p.1 p.2.2 now
  (swept.1,
   { newCount := p.2.1.newCount
     updatedCount := p.2.1.updatedCount
     resolvedCount := swept.2 },
   p.2.2)

/-- Hash oracle returning a fixed digest, for concrete scenarios where the
digest value is irrelevant. -/
def constMd5 : String → String := fun _ => "0123456789abcdef"

/-- Parse oracle that fails on every string (models payloads whose timestamp
fields are unparseable). -/
def noneParse : String → Option PyDatetime := fun _ => none

/-- Parse oracle recognising one concrete aware UTC timestamp string. -/
def utcParse : String → Option PyDatetime :=
  fun s => if s == "2024-01-01T10:00:00Z" then some ⟨true, 100⟩ else none

/-- A route payload naming the victoria line with no stop sequence. -/
def routeVictoria : RouteData :=
  { lineId := some "victoria", routeSectionNaptanEntrySequence := [] }

/-- Service map with a single known line. -/
def testServiceMap : List (String × Int) := [("victoria", 1)]

/-- A payload with no lastUpdate field at all. -/
def payloadNoLastUpdate : DisruptionData :=
  { category := some "RealTime"
    categoryDescription := none
    dtype := some "lineInfo"
    created := some "2024-01-01T09:00:00Z"
    description := some "Minor delays"
    summary := none
    additionalInfo := none
    closureText := none
    lastUpdate := none
    validFrom := none
    validTo := none
    affectedRoutes := [routeVictoria]
    affectedStops := none }

/-- The same payload carrying a parseable aware lastUpdate. -/
def payloadWithLastUpdate : DisruptionData :=
  { payloadNoLastUpdate with lastUpdate := some "2024-01-01T10:00:00Z" }

/-- Payload whose text matches a suspension keyword and no partial keyword. -/
def fullSuspensionPayload : DisruptionData :=
  { payloadNoLastUpdate with
    description := some "Victoria line suspended due to a signal failure" }

/-- Payload whose text matches both keyword classes. -/
def partialSuspensionPayload : DisruptionData :=
  { payloadNoLastUpdate with
    description := some "Victoria line part suspended while repairs continue" }

/-- Payload whose text matches neither keyword class. -/
def neitherPayload : DisruptionData :=
  { payloadNoLastUpdate with description := some "Minor delays on the line" }

/-- An open record whose fingerprint no current payload produces. -/
def openOldRecord : LiveDisruptionRec :=
  { tflDisruptionId := "disr-real-ffffffffffff"
    serviceId := 7
    category := "RealTime"
    categoryDescription := none
    disruptionType := some "lineInfo"
    description := "Old disruption"
    summary := none
    additionalInfo := none
    closureText := none
    severity := none
    severityLevel := none
    isFullSuspension := false
    isPartialSuspension := false
    affectedSectionStartNaptan := none
    affectedSectionEndNaptan := none
    affectedStopsJson := none
    affectedRoutesJson := []
    created := some ⟨true, 0⟩
    lastUpdate := none
    validFrom := none
    validTo := none
    startTime := some ⟨true, 0⟩
    actualEndTime := none
    updatedAt := 0 }

/-- An open record whose fingerprint matches payloadNoLastUpdate for
service 1 under the constMd5 oracle. -/
def matchedOldRecord : LiveDisruptionRec :=
  { openOldRecord with tflDisruptionId := "disr-real-0123456789ab" }

end Monitor

namespace Stats

/-- Row of the historical_delays table as read by _get_delays_for_service:
timestamp, delay_minutes (an integer column) and confidence_level. -/
structure HistDelayRec where
  timestamp : Int
  delay : Int
  confidence : String
deriving DecidableEq

/-- Iteration order of a Python dict built by insertion: first-occurrence
order of the keys. Written with a seen-accumulator so that concrete instances
reduce by evaluation. -/
def pyDictKeysAux (seen : List Int) : List Int → List Int
  | [] => []
  | t :: rest =>
    if seen.contains t then pyDictKeysAux seen rest
    else t :: pyDictKeysAux (t :: seen) rest

/-- Keys of the timestamp-keyed dict comprehension, in iteration order. -/
def pyDictKeys (l : List Int) : List Int := pyDictKeysAux [] l

/-- Value stored under a key by the dict comprehension: the last record with
that timestamp wins. -/
def dictGet (l : List HistDelayRec) (ts : Int) : Option HistDelayRec :=
  (l.filter (fun d => d.timestamp == ts)).getLast?

/-- TransferStatisticsComputer._calculate_delay_differentials: intersect the
timestamp keys of both sides and emit |delay_from - delay_to| * weight, where
weight is the average of the two per-side confidence weights (1.0 for a high
confidence record, 0.5 otherwise). The inner none branch is unreachable: its
key always comes from the from-side dict. -/
def calculateDelayDifferentials (delaysFrom delaysTo : List HistDelayRec) :
    List ℚ :=
  (pyDictKeys (delaysFrom.map (fun d => d.timestamp))).filterMap (fun ts =>
    match dictGet delaysTo ts with
    | none => none
    | some dTo =>
      match dictGet delaysFrom ts with
      | none => none
      | some dFrom =>
        let weightFrom : ℚ := if dFrom.confidence = "high" then 1 else 1/2
        let weightTo : ℚ := if dTo.confidence = "high" then 1 else 1/2
        let weight := (weightFrom + weightTo) / 2
        some (|(dFrom.delay : ℚ) - (dTo.delay : ℚ)| * weight))

/-- statistics.mean. -/
def listMean (l : List ℚ) : ℚ := l.sum / l.length

/-- statistics.variance: the sample variance, with denominator n - 1. -/
def listSampleVariance (l : List ℚ) : ℚ :=
  (l.map (fun x => (x - listMean l) ^ 2)).sum / ((l.length : ℚ) - 1)

/-- The variance stored by _compute_transfer_stat:
statistics.variance(delay_diffs) if len(delay_diffs) > 1 else 0. -/
def transferVariance (diffs : List ℚ) : ℚ :=
  if 1 < diffs.length then listSampleVariance diffs else 0

/-- The standard deviation stored by _compute_transfer_stat:
statistics.stdev(delay_diffs) if len(delay_diffs) > 1 else 0, where
statistics.stdev is the square root of the sample variance. -/
noncomputable def transferStdDev (diffs : List ℚ) : ℝ :=
  if 1 < diffs.length then Real.sqrt ((transferVariance diffs : ℚ) : ℝ) else 0

/-- The success rate of _compute_transfer_stat: the fraction of differentials
strictly below the 5-minute threshold. -/
def successRate (diffs : List ℚ) : ℚ :=
  ((diffs.filter (fun x => decide (x < 5))).length : ℚ) / diffs.length

/-- Row of the transfer_statistics table. The delay_std_dev column always
holds transferStdDev of the same differential list (an irrational real in
general), so it is kept out of the executable row and handled by the
transferStdDev function. -/
structure TransferStatRec where
  stopId : Int
  fromServiceId : Int
  toServiceId : Int
  meanDelay : ℚ
  delayVariance : ℚ
  sampleCount : Nat
  successRate : ℚ
  lastComputed : Int
deriving DecidableEq

/-- The row _compute_transfer_stat writes for a differential list. -/
def transferStatRecordOf (now : Int) (stopId fromService toService : Int)
    (delayDiffs : List ℚ) : TransferStatRec :=
  { stopId := stopId
    fromServiceId := fromService
    toServiceId := toService
    meanDelay := listMean delayDiffs
    delayVariance := transferVariance delayDiffs
    sampleCount := delayDiffs.length
    successRate := successRate delayDiffs
    lastComputed := now }

/-- The upsert keyed by (stop, from-service, to-service): overwrite the
existing row when present, insert otherwise. -/
def upsertTransferStat : List TransferStatRec → TransferStatRec →
    List TransferStatRec
  | [], s => [s]
  | x :: rest, s =>
    if x.stopId == s.stopId && x.fromServiceId == s.fromServiceId
        && x.toServiceId == s.toServiceId
    then s :: rest
    else x :: upsertTransferStat rest s

/-- TransferStatisticsComputer._compute_transfer_stat: empty input on either
side or fewer differentials than min_sample_size returns False with the table
untouched; otherwise the computed row is upserted and True is returned. -/
def computeTransferStat (minSamples : Nat) (now : Int)
    (stopId fromService toService : Int)
    (delaysFrom delaysTo : List HistDelayRec) (db : List TransferStatRec) :
    List TransferStatRec × Bool :=
  if delaysFrom.isEmpty || delaysTo.isEmpty then (db, false)
  else
    let delayDiffs := calculateDelayDifferentials delaysFrom delaysTo
    if delayDiffs.length < minSamples then (db, false)
    else
      (upsertTransferStat db
        (transferStatRecordOf now stopId fromService toService delayDiffs),
       true)

/-- Following the wording of the spec: for each shared timestamp take
|delay_from - delay_to| times the average of the per-side confidence weights,
one entry per overlapping timestamp, in from-side order. -/
def specOverlapDiffs (delaysFrom delaysTo : List HistDelayRec) : List ℚ :=
  delaysFrom.filterMap (fun dFrom =>
    (delaysTo.find? (fun dTo => dTo.timestamp == dFrom.timestamp)).map
      (fun dTo =>
        |(dFrom.delay : ℚ) - (dTo.delay : ℚ)| *
          (((if dFrom.confidence = "high" then (1 : ℚ) else 1/2)
            + (if dTo.confidence = "high" then (1 : ℚ) else 1/2)) / 2)))

/-- Following the wording of the spec: the unweighted absolute differentials
over the overlap set. -/
def specAbsDiffs (delaysFrom delaysTo : List HistDelayRec) : List ℚ :=
  delaysFrom.filterMap (fun dFrom =>
    (delaysTo.find? (fun dTo => dTo.timestamp == dFrom.timestamp)).map
      (fun dTo => |(dFrom.delay : ℚ) - (dTo.delay : ℚ)|))

/-- Following the wording of the spec: the population variance, with
denominator n. -/
def specPopVariance (l : List ℚ) : ℚ :=
  (l.map (fun x => (x - listMean l) ^ 2)).sum / (l.length : ℚ)

/-- Three hourly from-side delay records with distinct timestamps. -/
def testDelaysFrom : List HistDelayRec :=
  [⟨0, 5, "low"⟩, ⟨1, 7, "low"⟩, ⟨2, 9, "low"⟩]

/-- Two hourly to-side delay records overlapping the first two timestamps. -/
def testDelaysTo : List HistDelayRec :=
  [⟨0, 3, "low"⟩, ⟨1, 4, "low"⟩]

/-- A ten-element differential list whose sample and population variances
differ. -/
def testDiffs10 : List ℚ := [0, 0, 0, 0, 0, 0, 0, 0, 0, 2]

end Stats

namespace Sampling

/-- Row of the services table as read by _sample_disruption_delays. -/
structure ServiceRec where
  serviceId : Int
  mode : String
  tflLineId : String
deriving DecidableEq

/-- Row of the stops table as read by _find_affected_stops. -/
structure StopRec where
  stopId : Int
  tflStopId : Option String
  name : String
deriving DecidableEq

/-- A stop dict as held in major_stops or built by _find_affected_stops. -/
structure StopInfo where
  stopId : Int
  naptanId : Option String
  name : String
deriving DecidableEq

/-- One arrival prediction as consumed by _compute_delays_from_arrivals. -/
structure ArrivalData where
  timeToStation : Option Int
  expectedArrival : Option String
  vehicleId : Option String
  platformName : Option String
  direction : Option String
deriving DecidableEq

/-- One delay dict produced by _compute_delays_from_arrivals. The
expected_arrival string is carried through unparsed; no claim depends on the
parsed value. -/
structure DelayData where
  vehicleId : Option String
  expectedArrival : Option String
  delaySeconds : Int
  platformName : Option String
  direction : Option String
deriving DecidableEq

/-- Row of the realtime_delay_samples table as written by
_sample_disruption_delays. The owning disruption foreign key is modelled by
the unique tfl_disruption_id string. -/
structure RealtimeDelaySampleRec where
  serviceId : Int
  stopId : Int
  severityAtTime : String
  disruptionTflId : String
  vehicleId : Option String
  expectedArrival : Option String
  measuredDelaySeconds : Int
  timestamp : Int
  platformName : Option String
  direction : Option String
deriving DecidableEq

/-- The successive-arrival loop of _compute_delays_from_arrivals: walk the
sorted arrivals keeping the previous timeToStation (dict-get default 0); an
interval exceeding 1.5 times the expected frequency yields a delay entry
whose value is the excess over the expected frequency (the comparison is
written denominator-cleared, exactly equivalent over the integers). -/
def delayScan (expectedFrequency : Int) :
    Option Int → List ArrivalData → List DelayData
  | _, [] => []
  | prev?, a :: rest =>
    let tts := a.timeToStation.getD 0
    let tail := delayScan expectedFrequency (some tts) rest
    match prev? with
    | none => tail
    | some prev =>
      let interval := tts - prev
      if 2 * interval > 3 * expectedFrequency then
        { vehicleId := a.vehicleId
          expectedArrival := a.expectedArrival
          delaySeconds := interval - expectedFrequency
          platformName := a.platformName
          direction := a.direction } :: tail
      else tail

/-- SeverityLearner._compute_delays_from_arrivals: sort by timeToStation
(dict-get default 999999; Python sorted is stable, as is insertion sort),
scan the first ten, and discard the whole batch as noise when the mean excess
is below 30 seconds. -/
def computeDelaysFromArrivals (expectedFrequency : Int)
    (arrivals : List ArrivalData) : List DelayData :=
  if arrivals.isEmpty then []
  else
    let sorted := (arrivals.insertionSort
      (fun a b => a.timeToStation.getD 999999 ≤ b.timeToStation.getD 999999)).take 10
    let delays := delayScan expectedFrequency none sorted
    if delays.isEmpty then delays
    else if ((delays.map (fun dd => (dd.delaySeconds : ℚ))).sum
        / (delays.length : ℚ)) < 30 then []
    else delays

/-- SeverityLearner._find_affected_stops: take up to five truthy naptanIds
from the affected-stops payload and look the stops up by tfl_stop_id. -/
def findAffectedStops (stopsTable : List StopRec)
    (disruption : Monitor.LiveDisruptionRec) : List StopInfo :=
  match disruption.affectedStopsJson with
  | none => []
  | some stopsJson =>
    let naptanIds := (stopsJson.filterMap (fun st =>
      match st.naptanId with
      | none => none
      | some n => if n = "" then none else some n)).take 5
    if naptanIds.isEmpty then []
    else
      (stopsTable.filter (fun st =>
        match st.tflStopId with
        | some t => naptanIds.contains t
        | none => false)).map (fun st =>
          { stopId := st.stopId, naptanId := st.tflStopId, name := st.name })

/-- The severity_at_time value: disruption.severity or the Python f-string
fallback Level_{severity_level} (None prints as the string None). -/
def severityAtTimeOf (disruption : Monitor.LiveDisruptionRec) : String :=
  let fallback := "Level_" ++
    (match disruption.severityLevel with
     | none => "None"
     | some l => toString l)
  match disruption.severity with
  | none => fallback
  | some s => if s = "" then fallback else s

/-- The config lookup default_frequency_seconds.get(mode, 300). -/
def lookupFrequency (freqMap : List (String × Int)) (mode : String) : Int :=
  ((freqMap.find? (fun p => p.1 == mode)).map (fun p => p.2)).getD 300

/-- The Service lookup of _sample_disruption_delays. -/
def findServiceFor (services : List ServiceRec)
    (disruption : Monitor.LiveDisruptionRec) : Option ServiceRec :=
  services.find? (fun sv => sv.serviceId == disruption.serviceId)

/-- The SeverityLevel lookup of _sample_disruption_delays: filter_by on the
service mode and the disruption severity level (a NULL severity level matches
no row). -/
def findSeverityFor (severityLevels : List SeverityLearner.SeverityLevelRec)
    (service : ServiceRec) (disruption : Monitor.LiveDisruptionRec) :
    Option SeverityLearner.SeverityLevelRec :=
  severityLevels.find? (fun lv =>
    lv.modeName == service.mode
    && disruption.severityLevel == some lv.severityLevel)

/-- The stop list sampled for one disruption: the affected stops when any,
otherwise up to five major stops with truthy naptan ids. -/
def relevantStopsFor (stopsTable : List StopRec) (majorStops : List StopInfo)
    (disruption : Monitor.LiveDisruptionRec) : List StopInfo :=
  let affected := findAffectedStops stopsTable disruption
  if affected.isEmpty then
    (majorStops.filter (fun st => Monitor.strTruthy st.naptanId)).take 5
  else affected

/-- SeverityLearner._sample_disruption_delays: resolve the service and the
severity row; stop early (no samples) when the confidence has reached the
high-confidence threshold and the cumulative sample count has reached 100;
otherwise sample up to three relevant stops, turning each derived delay into
a RealtimeDelaySample row. A stop with no naptan id makes the arrivals call
fail; the per-stop except swallows it (no samples for that stop). -/
def sampleDisruptionDelays (highConfidenceThreshold : ℚ)
    (freqMap : List (String × Int)) (services : List ServiceRec)
    (severityLevels : List SeverityLearner.SeverityLevelRec)
    (stopsTable : List StopRec) (majorStops : List StopInfo)
    (arrivalsAt : String → String → List ArrivalData) (now : Int)
    (disruption : Monitor.LiveDisruptionRec) : List RealtimeDelaySampleRec :=
  match findServiceFor services disruption with
  | none => []
  | some service =>
    match findSeverityFor severityLevels service disruption with
    | none => []
    | some severityRecord =>
      if highConfidenceThreshold ≤ severityRecord.confidenceScore
          ∧ 100 ≤ severityRecord.sampleCount then []
      else
        (((relevantStopsFor stopsTable majorStops disruption).take 3).map
          (fun stopInfo =>
            match stopInfo.naptanId with
            | none => []
            | some naptan =>
              (computeDelaysFromArrivals (lookupFrequency freqMap service.mode)
                  (arrivalsAt service.tflLineId naptan)).map (fun dd =>
                { serviceId := service.serviceId
                  stopId := stopInfo.stopId
                  severityAtTime := severityAtTimeOf disruption
                  disruptionTflId := disruption.tflDisruptionId
                  vehicleId := dd.vehicleId
                  expectedArrival := dd.expectedArrival
                  measuredDelaySeconds := dd.delaySeconds
                  timestamp := now
                  platformName := dd.platformName
                  direction := dd.direction }))).flatten

/-- SeverityLearner.sample_delays_during_disruptions: nothing when learning
is disabled; otherwise sample every disruption whose actual_end_time is NULL
(the open ones). -/
def sampleDelaysDuringDisruptions (learningEnabled : Bool)
    (highConfidenceThreshold : ℚ) (freqMap : List (String × Int))
    (services : List ServiceRec)
    (severityLevels : List SeverityLearner.SeverityLevelRec)
    (stopsTable : List StopRec) (majorStops : List StopInfo)
    (arrivalsAt : String → String → List ArrivalData) (now : Int)
    (db : List Monitor.LiveDisruptionRec) : List RealtimeDelaySampleRec :=
  if !learningEnabled then []
  else
    ((db.filter (fun r => r.actualEndTime == none)).map
      (sampleDisruptionDelays highConfidenceThreshold freqMap services
        severityLevels stopsTable majorStops arrivalsAt now)).flatten

/-- Arrivals oracle returning two predictions 0 and 400 seconds out. -/
def cexArrivalsOracle : String → String → List ArrivalData :=
  fun _ _ =>
    [{ timeToStation := some 0, expectedArrival := none,
       vehicleId := some "veh1", platformName := none, direction := none },
     { timeToStation := some 400, expectedArrival := none,
       vehicleId := some "veh2", platformName := none, direction := none }]

/-- Frequency table holding the tube entry. -/
def cexFreqMap : List (String × Int) := [("tube", 180)]

/-- A tube service. -/
def cexService : ServiceRec := ⟨1, "tube", "victoria"⟩

/-- A stop matching the affected-stops payload of the fixture disruption. -/
def cexStop : StopRec := ⟨10, some "940G1", "Stop A"⟩

/-- An open disruption on service 1 at severity level 5 with one affected
stop. -/
def cexDisruption : Monitor.LiveDisruptionRec :=
  { Monitor.openOldRecord with
    serviceId := 1
    severity := some "Severe Delays"
    severityLevel := some 5
    affectedStopsJson := some [⟨some "940G1"⟩] }

/-- A tube severity row at level 5 whose confidence 0.92 has reached the 0.9
threshold but whose sample count 50 is below the 100 cap. -/
def gateSeverityRow : SeverityLearner.SeverityLevelRec :=
  { modeName := "tube"
    severityLevel := 5
    description := "Severe Delays"
    estimatedDelayMinutes := some 10
    isSuspension := false
    sampleCount := 50
    confidenceScore := 92/100
    lastUpdated := 0 }

/-- The same severity row with a low confidence 0.3. -/
def lowSeverityRow : SeverityLearner.SeverityLevelRec :=
  { gateSeverityRow with confidenceScore := 3/10 }

/-- The single sample the fixture configuration produces. -/
def cexSample : RealtimeDelaySampleRec :=
  { serviceId := 1
    stopId := 10
    severityAtTime := "Severe Delays"
    disruptionTflId := cexDisruption.tflDisruptionId
    vehicleId := some "veh2"
    expectedArrival := none
    measuredDelaySeconds := 220
    timestamp := 0
    platformName := none
    direction := none }

end Sampling

/-! ## Theorems -/

namespace SeverityLearner

theorem recentSamplesFor_test_eval :
    recentSamplesFor testSeverity 0 testSamples = testSamples := by decide

theorem testSeverity_update_eval :
    (updateSeverityRow 20 0 testSamples testSeverity).estimatedDelayMinutes =
      some (187/100) := by
  rw [updateSeverityRow, if_neg (by decide), updateSeverityEstimate]
  simp only [recentSamplesFor_test_eval]
  simp only [testSamples, List.length_replicate, List.map_replicate,
    List.sum_replicate, nsmul_eq_mul]
  norm_num [testSeverity, pyRound2, roundHalfEven, ratMin]

theorem updateSeverityRow_confidence_aux (minS : Nat) (now : Int)
    (samples : List DelaySampleRec) (sev : SeverityLevelRec)
    (hc : sev.confidenceScore ≤ 19/20) :
    sev.confidenceScore ≤ (updateSeverityRow minS now samples sev).confidenceScore ∧
      (updateSeverityRow minS now samples sev).confidenceScore ≤ 19/20 := by
  unfold updateSeverityRow updateSeverityEstimate
  by_cases h1 : sev.isSuspension
  · simp [h1, hc]
  · simp only [h1, Bool.false_eq_true, if_false]
    by_cases h2 : (recentSamplesFor sev now samples).length < minS
    · simp [h2, hc]
    · simp only [h2, if_false]
      refine ⟨le_min (by linarith) hc, min_le_right _ _⟩

theorem foldl_confidence_cap_aux
    (updates : List (Nat × Int × List DelaySampleRec)) :
    ∀ r : SeverityLevelRec, r.confidenceScore ≤ 19/20 →
      (updates.foldl (fun r a => updateSeverityRow a.1 a.2.1 a.2.2 r) r).confidenceScore
        ≤ 19/20 := by
  induction updates with
  | nil => intro r hr; simpa using hr
  | cons a rest ih =>
      intro r hr
      exact ih _ ((updateSeverityRow_confidence_aux a.1 a.2.1 a.2.2 r hr).2)

/-- C1 (amended): for a non-suspension severity level whose stored estimate is
non-null and non-zero, one application of the update with at least
min_samples_for_update qualifying samples from the trailing 7-day window sets
the stored estimate to the blend
(old_estimate * old_confidence + sample_mean * sample_weight) /
(old_confidence + sample_weight) rounded to two decimal places, where
sample_mean is the mean measured delay in minutes and sample_weight is
min(sample_count * 0.1, 5.0); with fewer than min_samples_for_update samples
the stored estimate is left unchanged. -/
theorem severity_update_blend (minS : Nat) (now : Int)
    (sev : SeverityLevelRec) (samples : List DelaySampleRec)
    (hsusp : sev.isSuspension = false) :
    (∀ e : ℚ, sev.estimatedDelayMinutes = some e → e ≠ 0 →
      minS ≤ (recentSamplesFor sev now samples).length →
      (updateSeverityRow minS now samples sev).estimatedDelayMinutes =
        some (pyRound2
          ((e * sev.confidenceScore +
              ((recentSamplesFor sev now samples).map
                  (fun s => (s.measuredDelaySeconds : ℚ))).sum
                / ((recentSamplesFor sev now samples).length : ℚ) / 60
              * ratMin (((recentSamplesFor sev now samples).length : ℚ) * (1/10)) 5)
            / (sev.confidenceScore
              + ratMin (((recentSamplesFor sev now samples).length : ℚ) * (1/10)) 5))))
    ∧ ((recentSamplesFor sev now samples).length < minS →
      (updateSeverityRow minS now samples sev).estimatedDelayMinutes =
        sev.estimatedDelayMinutes) := by
  constructor
  · intro e he hne hlen
    rw [updateSeverityRow, if_neg (by simp [hsusp]), updateSeverityEstimate,
      if_neg (by omega)]
    simp only [he]
    simp [hne]
  · intro hlt
    rw [updateSeverityRow]
    split
    · rfl
    · rw [updateSeverityEstimate, if_pos hlt]

/-- Witness for C1: the amended update rule applied to a concrete tube
severity row with twenty 120-second samples. -/
theorem severity_update_blend_witness :
    (updateSeverityRow 20 0 testSamples testSeverity).estimatedDelayMinutes =
      some (187/100) := by
  have h := (severity_update_blend 20 0 testSeverity testSamples rfl).1 1 rfl
    (by norm_num) (by decide)
  rw [h]
  simp only [recentSamplesFor_test_eval]
  simp only [testSamples, List.length_replicate, List.map_replicate,
    List.sum_replicate, nsmul_eq_mul]
  norm_num [testSeverity, pyRound2, roundHalfEven, ratMin]

/-- C1 counterexample: at a concrete input the stored estimate is not the raw
blend value claimed, because the code stores the blend rounded to two decimal
places (1.87 rather than 43/23). -/
theorem severity_update_blend_cex :
    (updateSeverityRow 20 0 testSamples testSeverity).estimatedDelayMinutes ≠
      some (((1 : ℚ) * (3/10) + (120/60 : ℚ) * ratMin ((20 : ℚ) * (1/10)) 5)
        / ((3/10) + ratMin ((20 : ℚ) * (1/10)) 5)) := by
  rw [testSeverity_update_eval]
  norm_num [ratMin]

/-- C2: an application of the severity update to a row whose confidence is at
most 0.95 yields a confidence that is at least the old one and at most 0.95;
and starting from an initialised row (confidence seeded at 0.3), any sequence
of update applications keeps the confidence at most 0.95. -/
theorem severity_confidence_monotone_cap
    (minS : Nat) (now : Int) (samples : List DelaySampleRec)
    (sev : SeverityLevelRec) (mode : String) (level : Int) (descr : String)
    (t0 : Int) (updates : List (Nat × Int × List DelaySampleRec))
    (hc : sev.confidenceScore ≤ 19/20) :
    (sev.confidenceScore ≤ (updateSeverityRow minS now samples sev).confidenceScore ∧
      (updateSeverityRow minS now samples sev).confidenceScore ≤ 19/20) ∧
    (updates.foldl (fun r a => updateSeverityRow a.1 a.2.1 a.2.2 r)
        (mkSeverityRecord mode level descr t0)).confidenceScore ≤ 19/20 := by
  refine ⟨updateSeverityRow_confidence_aux minS now samples sev hc, ?_⟩
  refine foldl_confidence_cap_aux updates _ ?_
  simp only [mkSeverityRecord]
  norm_num

/-- Witness for C2 at a concrete row, sample batch, and update sequence. -/
theorem severity_confidence_monotone_cap_witness :
    testSeverity.confidenceScore ≤ 19/20 ∧
    ((testSeverity.confidenceScore ≤
        (updateSeverityRow 20 0 testSamples testSeverity).confidenceScore ∧
      (updateSeverityRow 20 0 testSamples testSeverity).confidenceScore ≤ 19/20) ∧
    (([(20, 0, testSamples)].foldl (fun r a => updateSeverityRow a.1 a.2.1 a.2.2 r)
        (mkSeverityRecord "tube" 2 "Minor Delays" 0)).confidenceScore ≤ 19/20)) :=
  ⟨by norm_num [testSeverity],
    severity_confidence_monotone_cap 20 0 testSamples testSeverity
      "tube" 2 "Minor Delays" 0 [(20, 0, testSamples)] (by norm_num [testSeverity])⟩

end SeverityLearner

namespace Monitor

/-- C3: over the combined lowercased text of description, summary and closure
text, a suspension keyword with no partial keyword classifies as a full
suspension; both keyword classes classify as a partial suspension; and
neither keyword class leaves both flags false. -/
theorem analyze_disruption_flags (d : DisruptionData) :
    ((∃ kw ∈ suspensionKeywords, containsKeyword (combinedText d) kw = true) →
      (∀ kw ∈ partialKeywords, containsKeyword (combinedText d) kw = false) →
      (analyzeDisruption d).isFullSuspension = true ∧
        (analyzeDisruption d).isPartialSuspension = false) ∧
    ((∃ kw ∈ suspensionKeywords, containsKeyword (combinedText d) kw = true) →
      (∃ kw ∈ partialKeywords, containsKeyword (combinedText d) kw = true) →
      (analyzeDisruption d).isPartialSuspension = true ∧
        (analyzeDisruption d).isFullSuspension = false) ∧
    ((∀ kw ∈ suspensionKeywords, containsKeyword (combinedText d) kw = false) →
      (∀ kw ∈ partialKeywords, containsKeyword (combinedText d) kw = false) →
      (analyzeDisruption d).isFullSuspension = false ∧
        (analyzeDisruption d).isPartialSuspension = false) := by
  refine ⟨?_, ?_, ?_⟩
  · intro h1 h2
    have hs : suspensionKeywords.any
        (fun kw => containsKeyword (combinedText d) kw) = true :=
      List.any_eq_true.mpr h1
    have hp : partialKeywords.any
        (fun kw => containsKeyword (combinedText d) kw) = false := by
      rw [List.any_eq_false]
      intro kw hkw
      simp [h2 kw hkw]
    simp [analyzeDisruption, hs, hp]
  · intro h1 h2
    have hs : suspensionKeywords.any
        (fun kw => containsKeyword (combinedText d) kw) = true :=
      List.any_eq_true.mpr h1
    have hp : partialKeywords.any
        (fun kw => containsKeyword (combinedText d) kw) = true :=
      List.any_eq_true.mpr h2
    simp [analyzeDisruption, hs, hp]
  · intro h1 _
    have hs : suspensionKeywords.any
        (fun kw => containsKeyword (combinedText d) kw) = false := by
      rw [List.any_eq_false]
      intro kw hkw
      simp [h1 kw hkw]
    simp [analyzeDisruption, hs]

/-- Witness for C3: the three classification outcomes at three concrete
payloads. -/
theorem analyze_disruption_flags_witness :
    ((analyzeDisruption fullSuspensionPayload).isFullSuspension = true ∧
      (analyzeDisruption fullSuspensionPayload).isPartialSuspension = false) ∧
    ((analyzeDisruption partialSuspensionPayload).isPartialSuspension = true ∧
      (analyzeDisruption partialSuspensionPayload).isFullSuspension = false) ∧
    ((analyzeDisruption neitherPayload).isFullSuspension = false ∧
      (analyzeDisruption neitherPayload).isPartialSuspension = false) :=
  ⟨(analyze_disruption_flags fullSuspensionPayload).1
      (by decide) (by decide),
   (analyze_disruption_flags partialSuspensionPayload).2.1
      (by decide) (by decide),
   (analyze_disruption_flags neitherPayload).2.2
      (by decide) (by decide)⟩

theorem replaceByTflId_mem_or (db : List LiveDisruptionRec) (tid : String)
    (x r : LiveDisruptionRec) (hr : r ∈ db) :
    r ∈ replaceByTflId db tid x ∨ r.tflDisruptionId = tid := by
  induction db with
  | nil => cases hr
  | cons y rest ih =>
    rw [replaceByTflId]
    by_cases hy : y.tflDisruptionId == tid
    · rw [if_pos hy]
      rcases List.mem_cons.mp hr with h | h
      · subst h; exact Or.inr (by simpa using hy)
      · exact Or.inl (List.mem_cons_of_mem _ h)
    · rw [if_neg hy]
      rcases List.mem_cons.mp hr with h | h
      · subst h; exact Or.inl (List.mem_cons_self _ _)
      · rcases ih h with h2 | h2
        · exact Or.inl (List.mem_cons_of_mem _ h2)
        · exact Or.inr h2

theorem exists_id_replace (db : List LiveDisruptionRec) (tid0 tid : String)
    (x : LiveDisruptionRec) (hx : x.tflDisruptionId = tid0)
    (h : ∃ r ∈ db, r.tflDisruptionId = tid) :
    ∃ r ∈ replaceByTflId db tid0 x, r.tflDisruptionId = tid := by
  induction db with
  | nil => simpa using h
  | cons y rest ih =>
    rw [replaceByTflId]
    obtain ⟨r, hr, hrid⟩ := h
    by_cases hy : y.tflDisruptionId == tid0
    · rw [if_pos hy]
      rcases List.mem_cons.mp hr with h | h
      · refine ⟨x, List.mem_cons_self _ _, ?_⟩
        subst h
        rw [hx, ← hrid]
        exact (beq_iff_eq.mp hy).symm
      · exact ⟨r, List.mem_cons_of_mem _ h, hrid⟩
    · rw [if_neg hy]
      rcases List.mem_cons.mp hr with h | h
      · subst h; exact ⟨r, List.mem_cons_self _ _, hrid⟩
      · obtain ⟨r2, hr2, hr2id⟩ := ih ⟨r, h, hrid⟩
        exact ⟨r2, List.mem_cons_of_mem _ hr2, hr2id⟩

theorem findByTflId_isSome_of_exists (db : List LiveDisruptionRec)
    (tid : String) (h : ∃ r ∈ db, r.tflDisruptionId = tid) :
    ∃ y, findByTflId db tid = some y := by
  induction db with
  | nil => simpa using h
  | cons x rest ih =>
    obtain ⟨r, hr, hrid⟩ := h
    rw [findByTflId, List.find?]
    by_cases hx : x.tflDisruptionId == tid
    · rw [hx]; exact ⟨x, rfl⟩
    · rw [Bool.not_eq_true] at hx
      rw [hx]
      rcases List.mem_cons.mp hr with h | h
      · subst h; simp [hrid] at hx
      · exact ih ⟨r, h, hrid⟩

theorem findByTflId_replace_self (db : List LiveDisruptionRec) (tid : String)
    (x : LiveDisruptionRec) (hx : x.tflDisruptionId = tid)
    (h : ∃ y, findByTflId db tid = some y) :
    findByTflId (replaceByTflId db tid x) tid = some x := by
  induction db with
  | nil => simp [findByTflId] at h
  | cons y rest ih =>
    rw [replaceByTflId]
    by_cases hy : y.tflDisruptionId == tid
    · rw [if_pos hy, findByTflId, List.find?]
      simp [hx]
    · rw [if_neg hy, findByTflId, List.find?]
      rw [Bool.not_eq_true] at hy
      rw [hy]
      apply ih
      obtain ⟨z, hz⟩ := h
      rw [findByTflId, List.find?, hy] at hz
      exact ⟨z, hz⟩

theorem findByTflId_replace_other (db : List LiveDisruptionRec)
    (tid0 tid : String) (x : LiveDisruptionRec) (hx : x.tflDisruptionId = tid0)
    (hne : tid ≠ tid0) :
    findByTflId (replaceByTflId db tid0 x) tid = findByTflId db tid := by
  induction db with
  | nil => rfl
  | cons y rest ih =>
    rw [replaceByTflId]
    by_cases hy : y.tflDisruptionId == tid0
    · rw [if_pos hy]
      rw [findByTflId, List.find?, findByTflId, List.find?]
      have hxne : (x.tflDisruptionId == tid) = false := by
        simp [hx]; exact fun h => hne h.symm
      have hyne : (y.tflDisruptionId == tid) = false := by
        have : y.tflDisruptionId = tid0 := beq_iff_eq.mp hy
        simp [this]; exact fun h => hne h.symm
      rw [hxne, hyne]
    · rw [if_neg hy]
      rw [findByTflId, List.find?, findByTflId, List.find?]
      by_cases hyt : y.tflDisruptionId == tid
      · rw [hyt]
      · rw [Bool.not_eq_true] at hyt
        rw [hyt]
        exact ih

theorem findByTflId_append_some (db l : List LiveDisruptionRec) (tid : String)
    (r : LiveDisruptionRec) (h : findByTflId db tid = some r) :
    findByTflId (db ++ l) tid = some r := by
  induction db with
  | nil => simp [findByTflId, List.find?] at h
  | cons x rest ih =>
    rw [findByTflId, List.cons_append, List.find?]
    rw [findByTflId, List.find?] at h
    by_cases hx : x.tflDisruptionId == tid
    · rw [hx] at h ⊢; exact h
    · rw [Bool.not_eq_true] at hx
      rw [hx] at h ⊢
      exact ih h

theorem findByTflId_append_none (db : List LiveDisruptionRec) (tid : String)
    (c : LiveDisruptionRec) (h : findByTflId db tid = none)
    (hc : c.tflDisruptionId = tid) :
    findByTflId (db ++ [c]) tid = some c := by
  induction db with
  | nil => simp [findByTflId, List.find?, hc]
  | cons x rest ih =>
    rw [findByTflId, List.cons_append, List.find?]
    rw [findByTflId, List.find?] at h
    by_cases hx : x.tflDisruptionId == tid
    · rw [hx] at h; cases h
    · rw [Bool.not_eq_true] at hx
      rw [hx] at h ⊢
      exact ih h

theorem shouldUpdate_depends_on_lastUpdate
    (parse : String → Option PyDatetime) (d : DisruptionData)
    (r1 r2 : LiveDisruptionRec) (h : r1.lastUpdate = r2.lastUpdate) :
    shouldUpdateDisruption parse r1 d = shouldUpdateDisruption parse r2 d := by
  rw [shouldUpdateDisruption, shouldUpdateDisruption, h]

theorem processLineStep_inv (parse : String → Option PyDatetime)
    (md5hex : String → String) (sm : List (String × Int)) (now : Int)
    (d : DisruptionData) (an : AnalysisResult)
    (acc : List LiveDisruptionRec × ProcResult) (li : String)
    (r : LiveDisruptionRec)
    (h : r ∈ acc.1 ∨ r.tflDisruptionId ∈ acc.2.activeIds) :
    r ∈ (processLineStep parse md5hex sm now d an acc li).1 ∨
      r.tflDisruptionId ∈
        (processLineStep parse md5hex sm now d an acc li).2.activeIds := by
  rw [processLineStep]
  cases hlk : lookupService sm li with
  | none => simpa using h
  | some svc =>
    cases hfind : findByTflId acc.1 (generateDisruptionId md5hex d svc) with
    | some existing =>
      by_cases hsu : shouldUpdateDisruption parse existing d
      · simp only [hfind, hsu, if_true]
        rcases h with h | h
        · rcases replaceByTflId_mem_or acc.1 _ _ r h with h2 | h2
          · exact Or.inl h2
          · right
            simp only [h2]
            exact List.mem_append_right _ (List.mem_singleton_self _)
        · exact Or.inr (List.mem_append_left _ h)
      · rw [Bool.not_eq_true] at hsu
        simp only [hfind, hsu, Bool.false_eq_true, if_false]
        rcases h with h | h
        · exact Or.inl h
        · exact Or.inr (List.mem_append_left _ h)
    | none =>
      simp only [hfind]
      rcases h with h | h
      · exact Or.inl (List.mem_append_left _ h)
      · exact Or.inr (List.mem_append_left _ h)

theorem foldl_processLineStep_inv (parse : String → Option PyDatetime)
    (md5hex : String → String) (sm : List (String × Int)) (now : Int)
    (d : DisruptionData) (an : AnalysisResult) (l : List String) :
    ∀ (acc : List LiveDisruptionRec × ProcResult) (r : LiveDisruptionRec),
      (r ∈ acc.1 ∨ r.tflDisruptionId ∈ acc.2.activeIds) →
      r ∈ (l.foldl (processLineStep parse md5hex sm now d an) acc).1 ∨
        r.tflDisruptionId ∈
          (l.foldl (processLineStep parse md5hex sm now d an) acc).2.activeIds := by
  induction l with
  | nil => intro acc r h; simpa using h
  | cons li rest ih =>
    intro acc r h
    exact ih _ r (processLineStep_inv parse md5hex sm now d an acc li r h)

theorem processDisruption_inv (parse : String → Option PyDatetime)
    (md5hex : String → String) (sm : List (String × Int)) (now : Int)
    (db : List LiveDisruptionRec) (d : DisruptionData) (r : LiveDisruptionRec)
    (hr : r ∈ db) :
    r ∈ (processDisruption parse md5hex sm now db d).1 ∨
      r.tflDisruptionId ∈
        (processDisruption parse md5hex sm now db d).2.activeIds := by
  rw [processDisruption]
  by_cases he : (extractLineIds d.affectedRoutes).isEmpty
  · simp only [he, if_true]
    exact Or.inl hr
  · rw [Bool.not_eq_true] at he
    simp only [he, Bool.false_eq_true, if_false]
    exact foldl_processLineStep_inv parse md5hex sm now d _ _ _ r (Or.inl hr)

theorem foldl_processDisruptionStep_inv (parse : String → Option PyDatetime)
    (md5hex : String → String) (sm : List (String × Int)) (now : Int)
    (ds : List DisruptionData) :
    ∀ (acc : List LiveDisruptionRec × CycleStats × List String)
      (r : LiveDisruptionRec),
      (r ∈ acc.1 ∨ r.tflDisruptionId ∈ acc.2.2) →
      r ∈ (ds.foldl (processDisruptionStep parse md5hex sm now) acc).1 ∨
        r.tflDisruptionId ∈
          (ds.foldl (processDisruptionStep parse md5hex sm now) acc).2.2 := by
  induction ds with
  | nil => intro acc r h; simpa using h
  | cons d rest ih =>
    intro acc r h
    refine ih _ r ?_
    rw [processDisruptionStep]
    rcases h with h | h
    · rcases processDisruption_inv parse md5hex sm now acc.1 d r h with h2 | h2
      · exact Or.inl h2
      · exact Or.inr (List.mem_append_right _ h2)
    · exact Or.inr (List.mem_append_left _ h)

theorem processAll_inv (parse : String → Option PyDatetime)
    (md5hex : String → String) (sm : List (String × Int)) (now : Int)
    (ds : List DisruptionData) (db : List LiveDisruptionRec)
    (r : LiveDisruptionRec) (hr : r ∈ db) :
    r ∈ (processAllDisruptions parse md5hex sm now ds db).1 ∨
      r.tflDisruptionId ∈ (processAllDisruptions parse md5hex sm now ds db).2.2 :=
  foldl_processDisruptionStep_inv parse md5hex sm now ds _ r (Or.inl hr)

/-- C8: a record that is open at the start of a poll cycle and whose
fingerprint is not in the active-id set accumulated by that cycle is marked
resolved by the resolution sweep, with its resolved-at instant equal to the
cycle instant, hence lying between the previous cycle instant and the current
one; and since the sweep runs only after the processing phase, every record
whose id is in the active-id set passes through the sweep unchanged. -/
theorem poll_cycle_resolution (parse : String → Option PyDatetime)
    (md5hex : String → String) (sm : List (String × Int)) (now tprev : Int)
    (ds : List DisruptionData) (db : List LiveDisruptionRec)
    (htprev : tprev ≤ now) :
    (∀ r ∈ db, r.actualEndTime = none →
      r.tflDisruptionId ∉ (pollCycle parse md5hex sm now ds db).2.2 →
      ∃ r2 ∈ (pollCycle parse md5hex sm now ds db).1,
        r2.tflDisruptionId = r.tflDisruptionId ∧
        ∃ rt, r2.actualEndTime = some rt ∧ tprev ≤ rt ∧ rt ≤ now) ∧
    (∀ r2 ∈ (processAllDisruptions parse md5hex sm now ds db).1,
      r2.tflDisruptionId ∈ (pollCycle parse md5hex sm now ds db).2.2 →
      r2 ∈ (pollCycle parse md5hex sm now ds db).1) := by
  have hact : (pollCycle parse md5hex sm now ds db).2.2 =
      (processAllDisruptions parse md5hex sm now ds db).2.2 := rfl
  have hdb : (pollCycle parse md5hex sm now ds db).1 =
      (resolveMissingDisruptions (processAllDisruptions parse md5hex sm now ds db).1
        (processAllDisruptions parse md5hex sm now ds db).2.2 now).1 := rfl
  constructor
  · intro r hr hopen hnotin
    rw [hact] at hnotin
    rcases processAll_inv parse md5hex sm now ds db r hr with hmem | hid
    · rw [hdb, resolveMissingDisruptions]
      have hcond : (r.actualEndTime == none
          && !((processAllDisruptions parse md5hex sm now ds db).2.2.contains
                r.tflDisruptionId)) = true := by
        have h1 : (r.actualEndTime == none) = true := by simp [hopen]
        have h2 : ((processAllDisruptions parse md5hex sm now ds db).2.2.contains
            r.tflDisruptionId) = false := by
          rw [← Bool.not_eq_true]
          intro hc
          exact hnotin (List.elem_iff.mp hc)
        rw [h1, h2]
        rfl
      have him := List.mem_map_of_mem (fun x =>
        if x.actualEndTime == none
            && !((processAllDisruptions parse md5hex sm now ds db).2.2.contains
                  x.tflDisruptionId)
        then { x with actualEndTime := some now, updatedAt := now }
        else x) hmem
      beta_reduce at him
      rw [if_pos hcond] at him
      exact ⟨_, him, rfl, now, rfl, htprev, le_refl now⟩
    · exact absurd hid hnotin
  · intro r2 hr2 hin
    rw [hact] at hin
    rw [hdb, resolveMissingDisruptions]
    have hcond : (r2.actualEndTime == none
        && !((processAllDisruptions parse md5hex sm now ds db).2.2.contains
              r2.tflDisruptionId)) = false := by
      have h2 : ((processAllDisruptions parse md5hex sm now ds db).2.2.contains
          r2.tflDisruptionId) = true := List.elem_iff.mpr hin
      simp only [h2, Bool.not_true, Bool.and_false]
    have him := List.mem_map_of_mem (fun x =>
      if x.actualEndTime == none
          && !((processAllDisruptions parse md5hex sm now ds db).2.2.contains
                x.tflDisruptionId)
      then { x with actualEndTime := some now, updatedAt := now }
      else x) hr2
    beta_reduce at him
    rw [if_neg (by rw [hcond]; exact Bool.false_ne_true)] at him
    exact him

theorem findByTflId_some_id (db : List LiveDisruptionRec) (tid : String)
    (r : LiveDisruptionRec) (h : findByTflId db tid = some r) :
    r.tflDisruptionId = tid := by
  rw [findByTflId] at h
  have h2 := List.find?_some h
  simpa using h2

theorem findByTflId_map (db : List LiveDisruptionRec)
    (f : LiveDisruptionRec → LiveDisruptionRec)
    (hf : ∀ x, (f x).tflDisruptionId = x.tflDisruptionId) (tid : String) :
    findByTflId (db.map f) tid = (findByTflId db tid).map f := by
  induction db with
  | nil => rfl
  | cons x rest ih =>
    rw [List.map_cons, findByTflId, List.find?, findByTflId, List.find?]
    by_cases hx : x.tflDisruptionId == tid
    · have hfx : ((f x).tflDisruptionId == tid) = true := by rw [hf]; exact hx
      rw [hfx, hx]
      rfl
    · rw [Bool.not_eq_true] at hx
      have hfx : ((f x).tflDisruptionId == tid) = false := by rw [hf]; exact hx
      rw [hfx, hx]
      exact ih

theorem updated_noUpdate (parse : String → Option PyDatetime)
    (d : DisruptionData) (s : String) (ts : PyDatetime)
    (hs : d.lastUpdate = some s) (hsne : s ≠ "") (hparse : parse s = some ts)
    (haware : ts.aware = true) (now : Int) (r : LiveDisruptionRec)
    (an : AnalysisResult) :
    shouldUpdateDisruption parse (updateDisruption parse now r d an) d = false := by
  have hlu : (updateDisruption parse now r d an).lastUpdate = some ts := by
    show parseTimestamp parse d.lastUpdate = some ts
    rw [hs, parseTimestamp, if_neg hsne, hparse]
  rw [shouldUpdateDisruption, hs]
  simp only [hparse, hlu]
  rw [if_neg hsne]
  simp [haware, lt_irrefl]

theorem created_noUpdate (parse : String → Option PyDatetime)
    (d : DisruptionData) (s : String) (ts : PyDatetime)
    (hs : d.lastUpdate = some s) (hsne : s ≠ "") (hparse : parse s = some ts)
    (haware : ts.aware = true) (tid : String) (svc : Int) (an : AnalysisResult)
    (now : Int) :
    shouldUpdateDisruption parse (createDisruption parse tid svc d an now) d
      = false := by
  have hlu : (createDisruption parse tid svc d an now).lastUpdate = some ts := by
    show parseTimestamp parse d.lastUpdate = some ts
    rw [hs, parseTimestamp, if_neg hsne, hparse]
  rw [shouldUpdateDisruption, hs]
  simp only [hparse, hlu]
  rw [if_neg hsne]
  simp [haware, lt_irrefl]

theorem processLineStep_foundGood_est (parse : String → Option PyDatetime)
    (md5hex : String → String) (sm : List (String × Int)) (now : Int)
    (d : DisruptionData) (an : AnalysisResult) (s : String) (ts : PyDatetime)
    (hs : d.lastUpdate = some s) (hsne : s ≠ "") (hparse : parse s = some ts)
    (haware : ts.aware = true) (acc : List LiveDisruptionRec × ProcResult)
    (li : String) (svc : Int) (hlk : lookupService sm li = some svc) :
    ∃ r, findByTflId (processLineStep parse md5hex sm now d an acc li).1
        (generateDisruptionId md5hex d svc) = some r ∧
      shouldUpdateDisruption parse r d = false := by
  rw [processLineStep]
  simp only [hlk]
  cases hfind : findByTflId acc.1 (generateDisruptionId md5hex d svc) with
  | some existing =>
    have hid := findByTflId_some_id _ _ _ hfind
    by_cases hsu : shouldUpdateDisruption parse existing d
    · simp only [hfind, hsu, if_true]
      refine ⟨updateDisruption parse now existing d an, ?_,
        updated_noUpdate parse d s ts hs hsne hparse haware now existing an⟩
      exact findByTflId_replace_self acc.1 _ _
        (show (updateDisruption parse now existing d an).tflDisruptionId = _ from hid)
        ⟨existing, hfind⟩
    · rw [Bool.not_eq_true] at hsu
      simp only [hfind, hsu, Bool.false_eq_true, if_false]
      exact ⟨existing, rfl, hsu⟩
  | none =>
    simp only [hfind]
    exact ⟨createDisruption parse (generateDisruptionId md5hex d svc) svc d an now,
      findByTflId_append_none acc.1 _ _ hfind rfl,
      created_noUpdate parse d s ts hs hsne hparse haware _ svc an now⟩

theorem processLineStep_foundGood_pres (parse : String → Option PyDatetime)
    (md5hex : String → String) (sm : List (String × Int)) (now : Int)
    (d : DisruptionData) (an : AnalysisResult) (s : String) (ts : PyDatetime)
    (hs : d.lastUpdate = some s) (hsne : s ≠ "") (hparse : parse s = some ts)
    (haware : ts.aware = true) (acc : List LiveDisruptionRec × ProcResult)
    (li : String) (tid : String)
    (h : ∃ r, findByTflId acc.1 tid = some r ∧
      shouldUpdateDisruption parse r d = false) :
    ∃ r, findByTflId (processLineStep parse md5hex sm now d an acc li).1 tid
        = some r ∧ shouldUpdateDisruption parse r d = false := by
  cases hlk : lookupService sm li with
  | none =>
    rw [processLineStep]
    simp only [hlk]
    exact h
  | some svc =>
    by_cases he : tid = generateDisruptionId md5hex d svc
    · subst he
      exact processLineStep_foundGood_est parse md5hex sm now d an s ts
        hs hsne hparse haware acc li svc hlk
    · rw [processLineStep]
      simp only [hlk]
      obtain ⟨r, hr, hnu⟩ := h
      cases hfind : findByTflId acc.1 (generateDisruptionId md5hex d svc) with
      | some existing =>
        have hid := findByTflId_some_id _ _ _ hfind
        by_cases hsu : shouldUpdateDisruption parse existing d
        · simp only [hfind, hsu, if_true]
          refine ⟨r, ?_, hnu⟩
          rw [findByTflId_replace_other acc.1 _ tid _
            (show (updateDisruption parse now existing d an).tflDisruptionId = _ from hid) he]
          exact hr
        · rw [Bool.not_eq_true] at hsu
          simp only [hfind, hsu, Bool.false_eq_true, if_false]
          exact ⟨r, hr, hnu⟩
      | none =>
        simp only [hfind]
        exact ⟨r, findByTflId_append_some acc.1 _ tid r hr, hnu⟩

theorem foldl_foundGood_pres (parse : String → Option PyDatetime)
    (md5hex : String → String) (sm : List (String × Int)) (now : Int)
    (d : DisruptionData) (an : AnalysisResult) (s : String) (ts : PyDatetime)
    (hs : d.lastUpdate = some s) (hsne : s ≠ "") (hparse : parse s = some ts)
    (haware : ts.aware = true) (l : List String) :
    ∀ (acc : List LiveDisruptionRec × ProcResult) (tid : String),
      (∃ r, findByTflId acc.1 tid = some r ∧
        shouldUpdateDisruption parse r d = false) →
      ∃ r, findByTflId
          ((l.foldl (processLineStep parse md5hex sm now d an) acc).1) tid
          = some r ∧ shouldUpdateDisruption parse r d = false := by
  induction l with
  | nil => intro acc tid h; exact h
  | cons li rest ih =>
    intro acc tid h
    rw [List.foldl_cons]
    exact ih _ tid (processLineStep_foundGood_pres parse md5hex sm now d an
      s ts hs hsne hparse haware acc li tid h)

theorem processDisruption_foundGood (parse : String → Option PyDatetime)
    (md5hex : String → String) (sm : List (String × Int)) (now : Int)
    (db : List LiveDisruptionRec) (d : DisruptionData) (s : String)
    (ts : PyDatetime) (hs : d.lastUpdate = some s) (hsne : s ≠ "")
    (hparse : parse s = some ts) (haware : ts.aware = true) (li : String)
    (svc : Int) (hli : li ∈ extractLineIds d.affectedRoutes)
    (hlk : lookupService sm li = some svc) :
    ∃ r, findByTflId (processDisruption parse md5hex sm now db d).1
        (generateDisruptionId md5hex d svc) = some r ∧
      shouldUpdateDisruption parse r d = false := by
  rw [processDisruption]
  have hne : (extractLineIds d.affectedRoutes).isEmpty = false := by
    cases hl : extractLineIds d.affectedRoutes with
    | nil => rw [hl] at hli; cases hli
    | cons a b => rfl
  simp only [hne, Bool.false_eq_true, if_false]
  obtain ⟨l1, l2, hsplit⟩ := List.append_of_mem hli
  rw [hsplit, List.foldl_append, List.foldl_cons]
  exact foldl_foundGood_pres parse md5hex sm now d _ s ts hs hsne hparse haware
    l2 _ _ (processLineStep_foundGood_est parse md5hex sm now d _ s ts
      hs hsne hparse haware _ li svc hlk)

theorem resolveMissing_foundGood (parse : String → Option PyDatetime)
    (d : DisruptionData) (db : List LiveDisruptionRec) (act : List String)
    (now : Int) (tid : String)
    (h : ∃ r, findByTflId db tid = some r ∧
      shouldUpdateDisruption parse r d = false) :
    ∃ r, findByTflId (resolveMissingDisruptions db act now).1 tid = some r ∧
      shouldUpdateDisruption parse r d = false := by
  obtain ⟨r, hr, hnu⟩ := h
  have hf : ∀ x : LiveDisruptionRec,
      ((fun x => if x.actualEndTime == none && !(act.contains x.tflDisruptionId)
        then { x with actualEndTime := some now, updatedAt := now }
        else x) x).tflDisruptionId = x.tflDisruptionId := by
    intro x
    by_cases hc : (x.actualEndTime == none && !(act.contains x.tflDisruptionId))
    · simp only [hc, if_true]
    · rw [Bool.not_eq_true] at hc
      simp only [hc, Bool.false_eq_true, if_false]
  have hflu : ∀ x : LiveDisruptionRec,
      ((fun x => if x.actualEndTime == none && !(act.contains x.tflDisruptionId)
        then { x with actualEndTime := some now, updatedAt := now }
        else x) x).lastUpdate = x.lastUpdate := by
    intro x
    by_cases hc : (x.actualEndTime == none && !(act.contains x.tflDisruptionId))
    · simp only [hc, if_true]
    · rw [Bool.not_eq_true] at hc
      simp only [hc, Bool.false_eq_true, if_false]
  refine ⟨(fun x =>
      if x.actualEndTime == none && !(act.contains x.tflDisruptionId)
      then { x with actualEndTime := some now, updatedAt := now }
      else x) r, ?_, ?_⟩
  · show findByTflId (db.map _) tid = _
    rw [findByTflId_map db _ hf tid, hr]
    rfl
  · rw [shouldUpdate_depends_on_lastUpdate parse d _ r (hflu r)]
    exact hnu

theorem foldl_no_update (parse : String → Option PyDatetime)
    (md5hex : String → String) (sm : List (String × Int)) (now : Int)
    (d : DisruptionData) (an : AnalysisResult) (l : List String)
    (db : List LiveDisruptionRec)
    (hgood : ∀ li ∈ l, ∀ svc : Int, lookupService sm li = some svc →
      ∃ r, findByTflId db (generateDisruptionId md5hex d svc) = some r ∧
        shouldUpdateDisruption parse r d = false) :
    ∀ res : ProcResult,
      (l.foldl (processLineStep parse md5hex sm now d an) (db, res)).1 = db ∧
      (l.foldl (processLineStep parse md5hex sm now d an) (db, res)).2.updatedCount
        = res.updatedCount := by
  induction l with
  | nil => intro res; exact ⟨rfl, rfl⟩
  | cons li rest ih =>
    intro res
    rw [List.foldl_cons]
    cases hlk : lookupService sm li with
    | none =>
      have hstep : processLineStep parse md5hex sm now d an (db, res) li
          = (db, res) := by
        rw [processLineStep]
        simp only [hlk]
      rw [hstep]
      exact ih (fun li2 h2 => hgood li2 (List.mem_cons_of_mem _ h2)) res
    | some svc =>
      obtain ⟨r, hr, hnu⟩ := hgood li (List.mem_cons_self _ _) svc hlk
      have hstep : processLineStep parse md5hex sm now d an (db, res) li
          = (db, { res with activeIds :=
              res.activeIds ++ [generateDisruptionId md5hex d svc] }) := by
        rw [processLineStep]
        simp only [hlk, hr, hnu, Bool.false_eq_true, if_false]
      rw [hstep]
      exact ih (fun li2 h2 => hgood li2 (List.mem_cons_of_mem _ h2)) _

theorem processDisruption_no_update (parse : String → Option PyDatetime)
    (md5hex : String → String) (sm : List (String × Int)) (now : Int)
    (db : List LiveDisruptionRec) (d : DisruptionData)
    (hgood : ∀ li ∈ extractLineIds d.affectedRoutes, ∀ svc : Int,
      lookupService sm li = some svc →
      ∃ r, findByTflId db (generateDisruptionId md5hex d svc) = some r ∧
        shouldUpdateDisruption parse r d = false) :
    (processDisruption parse md5hex sm now db d).2.updatedCount = 0 := by
  rw [processDisruption]
  by_cases he : (extractLineIds d.affectedRoutes).isEmpty
  · simp only [he, if_true]
  · rw [Bool.not_eq_true] at he
    simp only [he, Bool.false_eq_true, if_false]
    exact (foldl_no_update parse md5hex sm now d _ _ db hgood ⟨0, 0, []⟩).2

/-- C7 (amended): when the payload carries a lastUpdate string that parses to
a timezone-aware timestamp, running the same single-payload poll cycle twice
in immediate succession leaves the updated count of the second pass at zero:
every record consulted in the second pass stores a lastUpdate at least as new
as the payload value, so the staleness test suppresses the write. -/
theorem poll_cycle_second_pass_silent (parse : String → Option PyDatetime)
    (md5hex : String → String) (sm : List (String × Int))
    (db0 : List LiveDisruptionRec) (t1 t2 : Int) (d : DisruptionData)
    (s : String) (ts : PyDatetime) (hs : d.lastUpdate = some s)
    (hsne : s ≠ "") (hparse : parse s = some ts) (haware : ts.aware = true) :
    (pollCycle parse md5hex sm t2 [d]
        (pollCycle parse md5hex sm t1 [d] db0).1).2.1.updatedCount = 0 := by
  have hgood : ∀ li ∈ extractLineIds d.affectedRoutes, ∀ svc : Int,
      lookupService sm li = some svc →
      ∃ r, findByTflId (pollCycle parse md5hex sm t1 [d] db0).1
          (generateDisruptionId md5hex d svc) = some r ∧
        shouldUpdateDisruption parse r d = false := by
    intro li hli svc hlk
    exact resolveMissing_foundGood parse d _ _ t1 _
      (processDisruption_foundGood parse md5hex sm t1 db0 d s ts
        hs hsne hparse haware li svc hli hlk)
  have hshape : (pollCycle parse md5hex sm t2 [d]
      (pollCycle parse md5hex sm t1 [d] db0).1).2.1.updatedCount =
      0 + (processDisruption parse md5hex sm t2
        (pollCycle parse md5hex sm t1 [d] db0).1 d).2.updatedCount := rfl
  rw [hshape,
    processDisruption_no_update parse md5hex sm t2 _ d hgood]

/-- Witness for C7: the concrete payload with a parseable aware lastUpdate,
cycled twice from an empty table. -/
theorem poll_cycle_second_pass_silent_witness :
    (pollCycle utcParse constMd5 testServiceMap 2 [payloadWithLastUpdate]
        (pollCycle utcParse constMd5 testServiceMap 1
          [payloadWithLastUpdate] []).1).2.1.updatedCount = 0 :=
  poll_cycle_second_pass_silent utcParse constMd5 testServiceMap [] 1 2
    payloadWithLastUpdate "2024-01-01T10:00:00Z" ⟨true, 100⟩ rfl
    (by decide) (by decide) rfl

/-- C7 counterexample: the claim as stated fails when the unchanged
lastUpdate value is absent: the staleness test then reports every record
stale, so the second pass of the same payload still counts one update. -/
theorem poll_cycle_idempotence_cex :
    (pollCycle noneParse constMd5 testServiceMap 2 [payloadNoLastUpdate]
        (pollCycle noneParse constMd5 testServiceMap 1
          [payloadNoLastUpdate] []).1).2.1.updatedCount = 1 := by
  decide

theorem shouldUpdate_true_of_bad (parse : String → Option PyDatetime)
    (d : DisruptionData)
    (hbad : d.lastUpdate = none ∨ d.lastUpdate = some "" ∨
      ∃ s, d.lastUpdate = some s ∧ parse s = none)
    (r : LiveDisruptionRec) :
    shouldUpdateDisruption parse r d = true := by
  rcases hbad with h | h | ⟨s, hl, hp⟩
  · simp only [shouldUpdateDisruption, h]
  · simp [shouldUpdateDisruption, h]
  · simp only [shouldUpdateDisruption, hl]
    by_cases hse : s = ""
    · simp [hse]
    · rw [if_neg hse, hp]

theorem processLineStep_exists_id (parse : String → Option PyDatetime)
    (md5hex : String → String) (sm : List (String × Int)) (now : Int)
    (d : DisruptionData) (an : AnalysisResult)
    (acc : List LiveDisruptionRec × ProcResult) (li : String) (tid : String)
    (h : ∃ r ∈ acc.1, r.tflDisruptionId = tid) :
    ∃ r ∈ (processLineStep parse md5hex sm now d an acc li).1,
      r.tflDisruptionId = tid := by
  rw [processLineStep]
  cases hlk : lookupService sm li with
  | none => simp only [hlk]; exact h
  | some svc =>
    cases hfind : findByTflId acc.1 (generateDisruptionId md5hex d svc) with
    | some existing =>
      have hid := findByTflId_some_id _ _ _ hfind
      by_cases hsu : shouldUpdateDisruption parse existing d
      · simp only [hfind, hsu, if_true]
        exact exists_id_replace acc.1 _ tid _
          (show (updateDisruption parse now existing d an).tflDisruptionId = _
            from hid) h
      · rw [Bool.not_eq_true] at hsu
        simp only [hfind, hsu, Bool.false_eq_true, if_false]
        exact h
    | none =>
      simp only [hfind]
      obtain ⟨r, hr, hrid⟩ := h
      exact ⟨r, List.mem_append_left _ hr, hrid⟩

theorem processLineStep_updated_mono (parse : String → Option PyDatetime)
    (md5hex : String → String) (sm : List (String × Int)) (now : Int)
    (d : DisruptionData) (an : AnalysisResult)
    (acc : List LiveDisruptionRec × ProcResult) (li : String) :
    acc.2.updatedCount ≤
      (processLineStep parse md5hex sm now d an acc li).2.updatedCount := by
  rw [processLineStep]
  cases hlk : lookupService sm li with
  | none => simp only [hlk]; exact le_refl _
  | some svc =>
    cases hfind : findByTflId acc.1 (generateDisruptionId md5hex d svc) with
    | some existing =>
      by_cases hsu : shouldUpdateDisruption parse existing d
      · simp only [hfind, hsu, if_true]
        exact Nat.le_succ _
      · rw [Bool.not_eq_true] at hsu
        simp only [hfind, hsu, Bool.false_eq_true, if_false]
        exact le_refl _
    | none =>
      simp only [hfind]
      exact le_refl _

theorem foldl_processLineStep_exists_id (parse : String → Option PyDatetime)
    (md5hex : String → String) (sm : List (String × Int)) (now : Int)
    (d : DisruptionData) (an : AnalysisResult) (l : List String) :
    ∀ (acc : List LiveDisruptionRec × ProcResult) (tid : String),
      (∃ r ∈ acc.1, r.tflDisruptionId = tid) →
      ∃ r ∈ (l.foldl (processLineStep parse md5hex sm now d an) acc).1,
        r.tflDisruptionId = tid := by
  induction l with
  | nil => intro acc tid h; exact h
  | cons li rest ih =>
    intro acc tid h
    rw [List.foldl_cons]
    exact ih _ tid (processLineStep_exists_id parse md5hex sm now d an acc li tid h)

theorem foldl_processLineStep_updated_mono (parse : String → Option PyDatetime)
    (md5hex : String → String) (sm : List (String × Int)) (now : Int)
    (d : DisruptionData) (an : AnalysisResult) (l : List String) :
    ∀ acc : List LiveDisruptionRec × ProcResult,
      acc.2.updatedCount ≤
        (l.foldl (processLineStep parse md5hex sm now d an) acc).2.updatedCount := by
  induction l with
  | nil => intro acc; exact le_refl _
  | cons li rest ih =>
    intro acc
    rw [List.foldl_cons]
    exact le_trans (processLineStep_updated_mono parse md5hex sm now d an acc li)
      (ih _)

/-- C10: when the lastUpdate field of an incoming payload is missing, empty,
or unparseable, the staleness test reports every existing record stale; the
line-id step matching an existing record therefore applies the field rewrite
and increments the updated count, so a matched payload contributes at least
one update on every poll. -/
theorem stale_lastupdate_rewrites (parse : String → Option PyDatetime)
    (md5hex : String → String) (sm : List (String × Int)) (now : Int)
    (db : List LiveDisruptionRec) (d : DisruptionData)
    (hbad : d.lastUpdate = none ∨ d.lastUpdate = some "" ∨
      ∃ s, d.lastUpdate = some s ∧ parse s = none)
    (li : String) (svc : Int) (hli : li ∈ extractLineIds d.affectedRoutes)
    (hsvc : lookupService sm li = some svc)
    (hex : ∃ r ∈ db, r.tflDisruptionId = generateDisruptionId md5hex d svc) :
    (∀ r : LiveDisruptionRec, shouldUpdateDisruption parse r d = true) ∧
    (∀ (accDb : List LiveDisruptionRec) (res : ProcResult)
        (existing : LiveDisruptionRec),
      findByTflId accDb (generateDisruptionId md5hex d svc) = some existing →
      processLineStep parse md5hex sm now d (analyzeDisruption d) (accDb, res) li
        = (replaceByTflId accDb (generateDisruptionId md5hex d svc)
            (updateDisruption parse now existing d (analyzeDisruption d)),
           { res with
              updatedCount := res.updatedCount + 1
              activeIds := res.activeIds
                ++ [generateDisruptionId md5hex d svc] })) ∧
    1 ≤ (processDisruption parse md5hex sm now db d).2.updatedCount := by
  have hall : ∀ r, shouldUpdateDisruption parse r d = true :=
    shouldUpdate_true_of_bad parse d hbad
  refine ⟨hall, ?_, ?_⟩
  · intro accDb res existing hfind
    rw [processLineStep]
    simp only [hsvc, hfind, hall existing, if_true]
  · rw [processDisruption]
    have hne : (extractLineIds d.affectedRoutes).isEmpty = false := by
      cases hl : extractLineIds d.affectedRoutes with
      | nil => rw [hl] at hli; cases hli
      | cons a b => rfl
    simp only [hne, Bool.false_eq_true, if_false]
    obtain ⟨l1, l2, hsplit⟩ := List.append_of_mem hli
    rw [hsplit, List.foldl_append, List.foldl_cons]
    have hex1 := foldl_processLineStep_exists_id parse md5hex sm now d
      (analyzeDisruption d) l1 (db, ⟨0, 0, []⟩) _ hex
    obtain ⟨y, hy⟩ := findByTflId_isSome_of_exists _ _ hex1
    have h1 : 1 ≤ (processLineStep parse md5hex sm now d (analyzeDisruption d)
        (l1.foldl (processLineStep parse md5hex sm now d (analyzeDisruption d))
          (db, ⟨0, 0, []⟩)) li).2.updatedCount := by
      rw [processLineStep]
      simp only [hsvc, hy, hall y, if_true]
      exact Nat.le_add_left 1 _
    exact le_trans h1 (foldl_processLineStep_updated_mono parse md5hex sm now d
      (analyzeDisruption d) l2 _)

/-- Witness for C10: a payload with no lastUpdate matched against a table
holding its fingerprint; the staleness test fires and the processing pass
counts an update. -/
theorem stale_lastupdate_rewrites_witness :
    shouldUpdateDisruption noneParse openOldRecord payloadNoLastUpdate = true ∧
    1 ≤ (processDisruption noneParse constMd5 testServiceMap 9
        [matchedOldRecord] payloadNoLastUpdate).2.updatedCount :=
  ⟨(stale_lastupdate_rewrites noneParse constMd5 testServiceMap 9
      [matchedOldRecord] payloadNoLastUpdate (Or.inl rfl) "victoria" 1
      (by decide) (by decide)
      ⟨matchedOldRecord, List.mem_singleton_self _, by decide⟩).1 openOldRecord,
   (stale_lastupdate_rewrites noneParse constMd5 testServiceMap 9
      [matchedOldRecord] payloadNoLastUpdate (Or.inl rfl) "victoria" 1
      (by decide) (by decide)
      ⟨matchedOldRecord, List.mem_singleton_self _, by decide⟩).2.2⟩

/-- Witness for C8: a table with one open stale record and an empty payload
list; the record is resolved with the cycle instant. -/
theorem poll_cycle_resolution_witness :
    ∃ r2 ∈ (pollCycle noneParse constMd5 testServiceMap 5 [] [openOldRecord]).1,
      r2.tflDisruptionId = openOldRecord.tflDisruptionId ∧
      ∃ rt, r2.actualEndTime = some rt ∧ (0 : Int) ≤ rt ∧ rt ≤ 5 :=
  (poll_cycle_resolution noneParse constMd5 testServiceMap 5 0 [] [openOldRecord]
      (by norm_num)).1
    openOldRecord (List.mem_singleton_self _) rfl (by decide)

end Monitor

namespace Stats

theorem pyDictKeysAux_of_nodup (l : List Int) :
    ∀ seen : List Int, l.Nodup → (∀ t ∈ l, seen.contains t = false) →
      pyDictKeysAux seen l = l := by
  induction l with
  | nil => intro seen _ _; rfl
  | cons t rest ih =>
    intro seen hnd hs
    rw [pyDictKeysAux, hs t (List.mem_cons_self _ _)]
    rw [if_neg (by simp)]
    congr 1
    rw [List.nodup_cons] at hnd
    refine ih (t :: seen) hnd.2 ?_
    intro u hu
    have h1 : (u == t) = false := by
      have : u ≠ t := fun he => hnd.1 (he ▸ hu)
      simp [this]
    have h2 : seen.contains u = false := hs u (List.mem_cons_of_mem _ hu)
    show List.elem u (t :: seen) = false
    rw [List.elem_cons]
    rw [h1]
    exact h2

theorem pyDictKeys_of_nodup (l : List Int) (h : l.Nodup) : pyDictKeys l = l :=
  pyDictKeysAux_of_nodup l [] h (fun _ _ => rfl)

theorem dictGet_eq_find (l : List HistDelayRec)
    (h : (l.map (fun d => d.timestamp)).Nodup) (x : Int) :
    dictGet l x = l.find? (fun d => d.timestamp == x) := by
  induction l with
  | nil => rfl
  | cons d rest ih =>
    rw [List.map_cons, List.nodup_cons] at h
    rw [dictGet, List.filter_cons, List.find?]
    by_cases hd : d.timestamp == x
    · rw [if_pos hd, hd]
      have hrest : rest.filter (fun e => e.timestamp == x) = [] := by
        rw [List.filter_eq_nil_iff]
        intro e he hex
        refine h.1 ?_
        have hex2 : e.timestamp = x := by simpa using hex
        have hdx : d.timestamp = x := by simpa using hd
        rw [hdx, ← hex2]
        exact List.mem_map_of_mem _ he
      rw [hrest]
      rfl
    · rw [Bool.not_eq_true] at hd
      rw [if_neg (by simp [hd]), hd]
      exact ih h.2

theorem find_self_of_nodup (l : List HistDelayRec)
    (h : (l.map (fun d => d.timestamp)).Nodup) (d : HistDelayRec) (hd : d ∈ l) :
    l.find? (fun e => e.timestamp == d.timestamp) = some d := by
  induction l with
  | nil => cases hd
  | cons x rest ih =>
    rw [List.map_cons, List.nodup_cons] at h
    rw [List.find?]
    by_cases hx : x.timestamp == d.timestamp
    · rw [hx]
      rcases List.mem_cons.mp hd with he | he
      · rw [he]
      · exfalso
        refine h.1 ?_
        have : x.timestamp = d.timestamp := by simpa using hx
        rw [this]
        exact List.mem_map_of_mem _ he
    · rw [Bool.not_eq_true] at hx
      rw [hx]
      rcases List.mem_cons.mp hd with he | he
      · subst he; simp at hx
      · exact ih h.2 he

theorem calculate_eq_specOverlap (delaysFrom delaysTo : List HistDelayRec)
    (hf : (delaysFrom.map (fun d => d.timestamp)).Nodup)
    (ht : (delaysTo.map (fun d => d.timestamp)).Nodup) :
    calculateDelayDifferentials delaysFrom delaysTo
      = specOverlapDiffs delaysFrom delaysTo := by
  rw [calculateDelayDifferentials, pyDictKeys_of_nodup _ hf,
    List.filterMap_map, specOverlapDiffs]
  apply List.filterMap_congr
  intro dFrom hmem
  show (match dictGet delaysTo dFrom.timestamp with
    | none => none
    | some dTo =>
      match dictGet delaysFrom dFrom.timestamp with
      | none => none
      | some dFr =>
        let weightFrom : ℚ := if dFr.confidence = "high" then 1 else 1/2
        let weightTo : ℚ := if dTo.confidence = "high" then 1 else 1/2
        let weight := (weightFrom + weightTo) / 2
        some (|(dFr.delay : ℚ) - (dTo.delay : ℚ)| * weight)) = _
  rw [dictGet_eq_find delaysTo ht, dictGet_eq_find delaysFrom hf,
    find_self_of_nodup delaysFrom hf dFrom hmem]
  cases delaysTo.find? (fun dTo => dTo.timestamp == dFrom.timestamp) with
  | none => rfl
  | some dTo => rfl

theorem specOverlap_from_nil (delaysTo : List HistDelayRec) :
    specOverlapDiffs [] delaysTo = [] := rfl

theorem specOverlap_to_nil (delaysFrom : List HistDelayRec) :
    specOverlapDiffs delaysFrom [] = [] := by
  rw [specOverlapDiffs]
  simp [List.find?]

theorem sum_map_mul_half (l : List ℚ) :
    (l.map (fun x => x * (1/2))).sum = l.sum * (1/2) := by
  induction l with
  | nil => simp
  | cons x rest ih =>
    rw [List.map_cons, List.sum_cons, List.sum_cons, ih, add_mul]

theorem specOverlap_all_low (delaysFrom delaysTo : List HistDelayRec)
    (hf2 : ∀ d ∈ delaysFrom, d.confidence ≠ "high")
    (ht2 : ∀ d ∈ delaysTo, d.confidence ≠ "high") :
    specOverlapDiffs delaysFrom delaysTo
      = (specAbsDiffs delaysFrom delaysTo).map (fun x => x * (1/2)) := by
  rw [specAbsDiffs, List.map_filterMap, specOverlapDiffs]
  apply List.filterMap_congr
  intro dFrom hmem
  rw [Option.map_map]
  cases hfind : delaysTo.find? (fun dTo => dTo.timestamp == dFrom.timestamp) with
  | none => rfl
  | some dTo =>
    have htmem := List.mem_of_find?_eq_some hfind
    simp only [Option.map_some', Function.comp_apply]
    congr 1
    rw [if_neg (hf2 dFrom hmem), if_neg (ht2 dTo htmem)]
    norm_num

/-- C4: with at least min_sample_size (and at least one) overlapping
timestamps between the two sides (whose timestamps are unique per side, as
the historical-delay invariant guarantees), the computed differential list
is exactly the per-overlap weighted list of the spec, the written row stores
its arithmetic mean and the overlap size as sample_count, the pair is
upserted, and in the all-low-confidence case the mean is half the mean of
the unweighted absolute differentials. -/
theorem transfer_mean_and_count (minSamples : Nat) (now : Int)
    (stopId fromService toService : Int)
    (delaysFrom delaysTo : List HistDelayRec) (db : List TransferStatRec)
    (hf : (delaysFrom.map (fun d => d.timestamp)).Nodup)
    (ht : (delaysTo.map (fun d => d.timestamp)).Nodup)
    (hpos : 0 < minSamples)
    (hmin : minSamples ≤ (specOverlapDiffs delaysFrom delaysTo).length) :
    calculateDelayDifferentials delaysFrom delaysTo
      = specOverlapDiffs delaysFrom delaysTo ∧
    computeTransferStat minSamples now stopId fromService toService
        delaysFrom delaysTo db
      = (upsertTransferStat db (transferStatRecordOf now stopId fromService
          toService (specOverlapDiffs delaysFrom delaysTo)), true) ∧
    (transferStatRecordOf now stopId fromService toService
        (specOverlapDiffs delaysFrom delaysTo)).meanDelay
      = (specOverlapDiffs delaysFrom delaysTo).sum
          / ((specOverlapDiffs delaysFrom delaysTo).length : ℚ) ∧
    (transferStatRecordOf now stopId fromService toService
        (specOverlapDiffs delaysFrom delaysTo)).sampleCount
      = (specOverlapDiffs delaysFrom delaysTo).length ∧
    ((∀ d ∈ delaysFrom, d.confidence ≠ "high") →
      (∀ d ∈ delaysTo, d.confidence ≠ "high") →
      (transferStatRecordOf now stopId fromService toService
          (specOverlapDiffs delaysFrom delaysTo)).meanDelay
        = (1/2) * ((specAbsDiffs delaysFrom delaysTo).sum
            / ((specAbsDiffs delaysFrom delaysTo).length : ℚ))) := by
  have hceq := calculate_eq_specOverlap delaysFrom delaysTo hf ht
  have hne : (specOverlapDiffs delaysFrom delaysTo) ≠ [] := by
    intro h0
    rw [h0] at hmin
    simp at hmin
    omega
  have hfne : delaysFrom.isEmpty = false := by
    cases hl : delaysFrom with
    | nil => exact absurd (hl ▸ specOverlap_from_nil delaysTo) hne
    | cons a b => rfl
  have htne : delaysTo.isEmpty = false := by
    cases hl : delaysTo with
    | nil => exact absurd (hl ▸ specOverlap_to_nil delaysFrom) hne
    | cons a b => rfl
  refine ⟨hceq, ?_, rfl, rfl, ?_⟩
  · rw [computeTransferStat]
    rw [if_neg (by rw [hfne, htne]; simp)]
    rw [hceq, if_neg (by omega)]
  · intro hf2 ht2
    have hlow := specOverlap_all_low delaysFrom delaysTo hf2 ht2
    show listMean (specOverlapDiffs delaysFrom delaysTo) = _
    rw [listMean, hlow, sum_map_mul_half, List.length_map]
    ring

/-- Witness for C4: two concrete delay series with two overlapping
timestamps, computed with min_sample_size two. -/
theorem transfer_mean_and_count_witness :
    computeTransferStat 2 0 1 2 3 testDelaysFrom testDelaysTo []
      = (upsertTransferStat []
          (transferStatRecordOf 0 1 2 3 (specOverlapDiffs testDelaysFrom testDelaysTo)),
         true) ∧
    (transferStatRecordOf 0 1 2 3
        (specOverlapDiffs testDelaysFrom testDelaysTo)).sampleCount
      = (specOverlapDiffs testDelaysFrom testDelaysTo).length :=
  ⟨(transfer_mean_and_count 2 0 1 2 3 testDelaysFrom testDelaysTo []
      (by decide) (by decide) (by decide) (by decide)).2.1,
   (transfer_mean_and_count 2 0 1 2 3 testDelaysFrom testDelaysTo []
      (by decide) (by decide) (by decide) (by decide)).2.2.2.1⟩

theorem listSampleVariance_nonneg (l : List ℚ) (h : 2 ≤ l.length) :
    0 ≤ listSampleVariance l := by
  rw [listSampleVariance]
  apply div_nonneg
  · apply List.sum_nonneg
    intro x hx
    obtain ⟨y, _, hy⟩ := List.mem_map.mp hx
    rw [← hy]
    exact sq_nonneg _
  · have h1 : (2 : ℚ) ≤ (l.length : ℚ) := by exact_mod_cast h
    linarith

/-- C5 (amended): for a differential list long enough to be stored (at least
min_sample_size and at least two elements), the stored variance is the sample
variance of the list, with denominator n - 1, and the stored standard
deviation is its square root (a nonnegative real whose square is the stored
variance). -/
theorem transfer_variance_sample (minSamples : Nat) (now : Int)
    (stopId fromService toService : Int) (diffs : List ℚ)
    (h2 : 2 ≤ diffs.length) (hmin : minSamples ≤ diffs.length) :
    (transferStatRecordOf now stopId fromService toService diffs).delayVariance
      = (diffs.map (fun x => (x - diffs.sum / diffs.length) ^ 2)).sum
          / ((diffs.length : ℚ) - 1) ∧
    transferStdDev diffs ^ 2
      = ((transferStatRecordOf now stopId fromService toService
          diffs).delayVariance : ℝ) ∧
    0 ≤ transferStdDev diffs := by
  have hlt : 1 < diffs.length := by omega
  have hvar : (transferStatRecordOf now stopId fromService toService
      diffs).delayVariance = listSampleVariance diffs := by
    show transferVariance diffs = _
    rw [transferVariance, if_pos hlt]
  refine ⟨?_, ?_, ?_⟩
  · rw [hvar]
    rfl
  · rw [transferStdDev, if_pos hlt, hvar, transferVariance, if_pos hlt, sq]
    have hnn : (0 : ℚ) ≤ listSampleVariance diffs :=
      listSampleVariance_nonneg diffs h2
    exact Real.mul_self_sqrt (by exact_mod_cast hnn)
  · rw [transferStdDev, if_pos hlt]
    exact Real.sqrt_nonneg _

/-- Witness for C5 at a concrete two-element differential list. -/
theorem transfer_variance_sample_witness :
    2 ≤ ([1, 3/2] : List ℚ).length ∧
    ((transferStatRecordOf 0 1 2 3 ([1, 3/2] : List ℚ)).delayVariance
      = (([1, 3/2] : List ℚ).map
          (fun x => (x - ([1, 3/2] : List ℚ).sum / ([1, 3/2] : List ℚ).length) ^ 2)).sum
          / ((([1, 3/2] : List ℚ).length : ℚ) - 1) ∧
    transferStdDev ([1, 3/2] : List ℚ) ^ 2
      = ((transferStatRecordOf 0 1 2 3 ([1, 3/2] : List ℚ)).delayVariance : ℝ) ∧
    0 ≤ transferStdDev ([1, 3/2] : List ℚ)) :=
  ⟨by decide,
   transfer_variance_sample 2 0 1 2 3 ([1, 3/2] : List ℚ) (by decide) (by decide)⟩

/-- C5 counterexample: on a concrete ten-element differential list the stored
variance is the sample variance 2/5, not the population variance 9/25. -/
theorem transfer_variance_population_cex :
    (transferStatRecordOf 0 1 2 3 testDiffs10).delayVariance
      ≠ specPopVariance testDiffs10 := by
  have h1 : (transferStatRecordOf 0 1 2 3 testDiffs10).delayVariance = 2/5 := by
    show transferVariance testDiffs10 = 2/5
    rw [transferVariance, if_pos (by decide)]
    rw [listSampleVariance, listMean]
    norm_num [testDiffs10]
  have h2 : specPopVariance testDiffs10 = 9/25 := by
    rw [specPopVariance, listMean]
    norm_num [testDiffs10]
  rw [h1, h2]
  norm_num

/-- C6: when the differential count over the overlapping timestamps is below
min_sample_size, _compute_transfer_stat returns False and writes nothing: the
transfer-statistics table is returned unchanged. -/
theorem transfer_skip_insufficient (minSamples : Nat) (now : Int)
    (stopId fromService toService : Int)
    (delaysFrom delaysTo : List HistDelayRec) (db : List TransferStatRec)
    (h : (calculateDelayDifferentials delaysFrom delaysTo).length < minSamples) :
    computeTransferStat minSamples now stopId fromService toService
        delaysFrom delaysTo db = (db, false) := by
  rw [computeTransferStat]
  by_cases he : (delaysFrom.isEmpty || delaysTo.isEmpty) = true
  · rw [if_pos he]
  · rw [if_neg he, if_pos h]

/-- Witness for C6: the concrete series with two overlapping timestamps under
the default minimum of ten; the table (holding one unrelated row) is
unchanged. -/
theorem transfer_skip_insufficient_witness :
    (calculateDelayDifferentials testDelaysFrom testDelaysTo).length < 10 ∧
    computeTransferStat 10 0 1 2 3 testDelaysFrom testDelaysTo
        [transferStatRecordOf 7 4 5 6 []]
      = ([transferStatRecordOf 7 4 5 6 []], false) :=
  ⟨by decide,
   transfer_skip_insufficient 10 0 1 2 3 testDelaysFrom testDelaysTo
     [transferStatRecordOf 7 4 5 6 []] (by decide)⟩

end Stats

namespace Sampling

/-- C9 (amended): every realtime delay sample is created for a disruption
that is open (actual end time null) at sampling time, and only while the
gate of _sample_disruption_delays is passed: the confidence of the sampled
(mode, severity-level) is below the high-confidence threshold or its
cumulative sample count is below 100. -/
theorem samples_only_open_and_gated (learningEnabled : Bool) (highThr : ℚ)
    (freqMap : List (String × Int)) (services : List ServiceRec)
    (severityLevels : List SeverityLearner.SeverityLevelRec)
    (stopsTable : List StopRec) (majorStops : List StopInfo)
    (arrivalsAt : String → String → List ArrivalData) (now : Int)
    (db : List Monitor.LiveDisruptionRec) (sample : RealtimeDelaySampleRec)
    (hmem : sample ∈ sampleDelaysDuringDisruptions learningEnabled highThr
      freqMap services severityLevels stopsTable majorStops arrivalsAt now db) :
    ∃ d ∈ db, d.actualEndTime = none ∧
      sample.disruptionTflId = d.tflDisruptionId ∧
      ∃ service lv, findServiceFor services d = some service ∧
        findSeverityFor severityLevels service d = some lv ∧
        (lv.confidenceScore < highThr ∨ lv.sampleCount < 100) := by
  rw [sampleDelaysDuringDisruptions] at hmem
  by_cases hle : learningEnabled = true
  · simp only [hle, Bool.not_true, Bool.false_eq_true, if_false] at hmem
    obtain ⟨l, hl, hsl⟩ := List.mem_flatten.mp hmem
    obtain ⟨d, hd, rfl⟩ := List.mem_map.mp hl
    have hdb := List.mem_filter.mp hd
    have hopen : d.actualEndTime = none := by simpa using hdb.2
    refine ⟨d, hdb.1, hopen, ?_⟩
    rw [sampleDisruptionDelays] at hsl
    cases hfs : findServiceFor services d with
    | none =>
      simp only [hfs] at hsl
      simp at hsl
    | some service =>
      simp only [hfs] at hsl
      cases hfv : findSeverityFor severityLevels service d with
      | none =>
        simp only [hfv] at hsl
        simp at hsl
      | some lv =>
        simp only [hfv] at hsl
        by_cases hg : highThr ≤ lv.confidenceScore ∧ 100 ≤ lv.sampleCount
        · rw [if_pos hg] at hsl
          simp at hsl
        · rw [if_neg hg] at hsl
          have hdisj : lv.confidenceScore < highThr ∨ lv.sampleCount < 100 := by
            rcases not_and_or.mp hg with h | h
            · exact Or.inl (lt_of_not_le h)
            · exact Or.inr (by omega)
          obtain ⟨l2, hl2, hsl2⟩ := List.mem_flatten.mp hsl
          obtain ⟨stopInfo, _, rfl⟩ := List.mem_map.mp hl2
          cases hnap : stopInfo.naptanId with
          | none =>
            simp only [hnap] at hsl2
            simp at hsl2
          | some naptan =>
            simp only [hnap] at hsl2
            obtain ⟨dd, _, rfl⟩ := List.mem_map.mp hsl2
            exact ⟨rfl, service, lv, rfl, hfv, hdisj⟩
  · rw [Bool.not_eq_true] at hle
    simp only [hle, Bool.not_false, if_true] at hmem
    cases hmem

theorem sampleDisruptionDelays_fixture_eval
    (row : SeverityLearner.SeverityLevelRec) (hmode : row.modeName = "tube")
    (hlvl : row.severityLevel = 5)
    (hgate : ¬((9/10 : ℚ) ≤ row.confidenceScore ∧ 100 ≤ row.sampleCount)) :
    sampleDisruptionDelays (9/10) cexFreqMap [cexService] [row] [cexStop] []
        cexArrivalsOracle 0 cexDisruption = [cexSample] := by
  have hfs : findServiceFor [cexService] cexDisruption = some cexService := by
    decide
  have hfv : findSeverityFor [row] cexService cexDisruption = some row := by
    rw [findSeverityFor, List.find?]
    have hp : (row.modeName == cexService.mode
        && cexDisruption.severityLevel == some row.severityLevel) = true := by
      rw [hmode, hlvl]
      decide
    rw [hp]
  have hstops : relevantStopsFor [cexStop] [] cexDisruption
      = [⟨10, some "940G1", "Stop A"⟩] := by decide
  have hdelays : computeDelaysFromArrivals 180
      (cexArrivalsOracle cexService.tflLineId "940G1")
      = [{ vehicleId := some "veh2", expectedArrival := none,
           delaySeconds := 220, platformName := none, direction := none }] := by
    rw [computeDelaysFromArrivals]
    rw [if_neg (by decide)]
    have hsorted : ((cexArrivalsOracle cexService.tflLineId "940G1").insertionSort
        (fun a b => a.timeToStation.getD 999999 ≤ b.timeToStation.getD 999999)).take 10
        = cexArrivalsOracle cexService.tflLineId "940G1" := by decide
    have hscan : delayScan 180 none (cexArrivalsOracle cexService.tflLineId "940G1")
        = [{ vehicleId := some "veh2", expectedArrival := none,
             delaySeconds := 220, platformName := none, direction := none }] := by
      decide
    simp only [hsorted, hscan]
    rw [if_neg (by decide)]
    rw [if_neg (by norm_num [List.map, List.sum_cons, List.sum_nil])]
  have hfreq : lookupFrequency cexFreqMap cexService.mode = 180 := by decide
  have htake : ([(⟨10, some "940G1", "Stop A"⟩ : StopInfo)].take 3)
      = [(⟨10, some "940G1", "Stop A"⟩ : StopInfo)] := by decide
  rw [sampleDisruptionDelays]
  simp only [hfs]
  simp only [hfv]
  rw [if_neg hgate]
  rw [hstops, htake]
  simp only [List.map_cons, List.map_nil, hfreq]
  rw [hdelays]
  rfl

/-- Witness for C9: with a below-threshold severity row the fixture produces
one sample, and that sample satisfies the openness and gate properties. -/
theorem samples_only_open_and_gated_witness :
    cexSample ∈ sampleDelaysDuringDisruptions true (9/10) cexFreqMap
      [cexService] [lowSeverityRow] [cexStop] [] cexArrivalsOracle 0
      [cexDisruption] ∧
    ∃ d ∈ [cexDisruption], d.actualEndTime = none ∧
      cexSample.disruptionTflId = d.tflDisruptionId ∧
      ∃ service lv, findServiceFor [cexService] d = some service ∧
        findSeverityFor [lowSeverityRow] service d = some lv ∧
        (lv.confidenceScore < 9/10 ∨ lv.sampleCount < 100) := by
  have hmem : cexSample ∈ sampleDelaysDuringDisruptions true (9/10) cexFreqMap
      [cexService] [lowSeverityRow] [cexStop] [] cexArrivalsOracle 0
      [cexDisruption] := by
    rw [sampleDelaysDuringDisruptions]
    rw [if_neg (by decide)]
    have hfilter : ([cexDisruption].filter (fun r => r.actualEndTime == none))
        = [cexDisruption] := by decide
    rw [hfilter, List.map_cons, List.map_nil]
    rw [sampleDisruptionDelays_fixture_eval lowSeverityRow rfl rfl
      (by intro h; norm_num [lowSeverityRow, gateSeverityRow] at h)]
    decide
  exact ⟨hmem, samples_only_open_and_gated true (9/10) cexFreqMap [cexService]
    [lowSeverityRow] [cexStop] [] cexArrivalsOracle 0 [cexDisruption]
    cexSample hmem⟩

/-- C9 counterexample: with the severity confidence at 0.92, at or above the
0.9 threshold, but the cumulative sample count at 50, the sampler still
creates a sample: sampling stops only when the confidence has reached the
threshold and the sample count has reached 100. -/
theorem sampling_above_threshold_cex :
    (9/10 : ℚ) ≤ gateSeverityRow.confidenceScore ∧
    sampleDisruptionDelays (9/10) cexFreqMap [cexService] [gateSeverityRow]
        [cexStop] [] cexArrivalsOracle 0 cexDisruption = [cexSample] := by
  constructor
  · show (9/10 : ℚ) ≤ 92/100
    norm_num
  · refine sampleDisruptionDelays_fixture_eval gateSeverityRow rfl rfl ?_
    intro h
    have h2 := h.2
    norm_num [gateSeverityRow] at h2

end Sampling

end TflNexus
